import Mathlib

/-!
Shallow embedding of the relationship-inference and knowledge-graph core of
the Research-Reasoner repository
(`researchreasoner-backend/src/services/relationshipService.ts` and the
`/build-knowledge-graph` route plus `InstantCache` in
`researchreasoner-backend/src/routes/research.ts`), together with theorems
settling the specification claims about it.

Modelling conventions:
* JavaScript numbers that carry fractional values (edge strengths,
  `Math.random()` results) are modelled as rationals `ℚ`; years as `Int`;
  counts and timestamps as `Nat`.
* `Math.random()` is modelled by an injected stream `rand : Nat → ℚ`
  together with a call counter threaded through every function that can
  consume randomness, in source order.
* JavaScript `Map`s are modelled as association lists in key-insertion
  order (`set` on an existing key updates in place, otherwise appends),
  `Set`s by lists used only through membership.
* `Array.prototype.sort` (stable since ES2019) is modelled by a stable
  insertion sort; a sort without comparator compares the string
  representations of the elements, as JavaScript does.
* Falsy checks on strings/numbers (`paper.venue`, `paper.year`,
  `topic || '...'`, `strength || 0.5`) are modelled explicitly: the empty
  string and the number 0 count as absent.
-/

namespace ResearchReasoner

/-- `relationshipType` of a `PaperRelationship`
(`relationshipService.ts`, line 5). -/
inductive RelType where
  | citation
  | content
  | author
  | temporal
  | venue
deriving DecidableEq, Repr

/-- Optional `metadata` attached to a relationship
(`relationshipService.ts`, lines 7–13). -/
structure RelMetadata where
  sharedKeywords : Option (List String) := none
  authorOverlap : Option (List String) := none
  citationCount : Option Nat := none
  yearDifference : Option Nat := none
  venueMatch : Option Bool := none
deriving DecidableEq, Repr

/-- `PaperRelationship` (`relationshipService.ts`, lines 2–14). -/
structure PaperRelationship where
  sourceId : String
  targetId : String
  relationshipType : RelType
  strength : ℚ
  metadata : Option RelMetadata := none
deriving DecidableEq, Repr

/-- `Paper` (`relationshipService.ts`, lines 16–26). -/
structure Paper where
  id : String
  title : String
  authors : List String
  abstract : Option String := none
  year : Option Int := none
  venue : Option String := none
  citationCount : Option Nat := none
  references : Option (List String) := none
  citations : Option (List String) := none
deriving DecidableEq, Repr

/-! ### String helpers (JavaScript semantics, ASCII fragment) -/

/-- JavaScript regex `\s` (ASCII fragment): space, tab, LF, VT, FF, CR. -/
def jsIsSpace (c : Char) : Bool :=
  c = ' ' || c = Char.ofNat 9 || c = Char.ofNat 10 || c = Char.ofNat 11 ||
  c = Char.ofNat 12 || c = Char.ofNat 13

/-- JavaScript regex `\w`: `[A-Za-z0-9_]`. -/
def jsIsWordChar (c : Char) : Bool :=
  c.isAlpha || c.isDigit || c = '_'

/-- `String.prototype.toLowerCase` (ASCII fragment). -/
def strLower (s : String) : String :=
  String.mk (s.data.map Char.toLower)

/-- `String.prototype.trim`: strip leading and trailing whitespace. -/
def strTrim (s : String) : String :=
  String.mk (((s.data.dropWhile (fun c => jsIsSpace c)).reverse.dropWhile
    (fun c => jsIsSpace c)).reverse)

/-- Truthiness of an optional string: `undefined` and `''` are falsy. -/
def strTruthy (o : Option String) : Option String :=
  match o with
  | none => none
  | some s => if s = "" then none else some s

/-- `paper.citationCount || 0`. -/
def ccOr0 (p : Paper) : Nat := p.citationCount.getD 0

/-- `paper.year || 2024` (`relationshipService.ts`, line 67): a missing
year, and also the falsy year 0, fall into the fixed 2024 bucket. -/
def effYear (p : Paper) : Int :=
  match p.year with
  | none => 2024
  | some y => if y = 0 then 2024 else y

/-- Truthiness of `paper.year` (`if (paper.year && ...)`): 0 is falsy. -/
def yearTruthy (p : Paper) : Option Int :=
  match p.year with
  | none => none
  | some y => if y = 0 then none else some y

/-! ### Stable sort (model of `Array.prototype.sort`)

`le x y` renders "comparator(x, y) ≤ 0", i.e. `x` may precede `y`.
Insertion sort from the right is stable, which matches the ES2019
requirement on `Array.prototype.sort`; for a comparator that induces a
total preorder the stable sorted output is unique, so this is a faithful
model of the engine's sort. -/

/-- Insert `x` before the first element `y` with `le x y`. -/
def insertLe (le : α → α → Bool) (x : α) : List α → List α
  | [] => [x]
  | y :: ys => if le x y then x :: y :: ys else y :: insertLe le x ys

/-- Stable sort by `le` (model of `Array.prototype.sort(comparator)`). -/
def sortByJs (le : α → α → Bool) : List α → List α
  | [] => []
  | x :: xs => insertLe le x (sortByJs le xs)

/-! ### Keyword extraction (`extractKeywords`, lines 141–151) -/

/-- The fixed stop-word set (`relationshipService.ts`, lines 142–144). -/
def stopWords : List String :=
  ["the", "a", "an", "and", "or", "but", "in", "on", "at", "to", "for",
   "of", "with", "by", "is", "are", "was", "were", "be", "been", "being",
   "have", "has", "had", "do", "does", "did", "will", "would", "could",
   "should", "this", "that", "these", "those"]

/-- `text.toLowerCase().replace(/[^\w\s]/g, ' ').split(/\s+/)` followed by
the length/stop-word filter and `slice(0, 20)`.  `split(/\s+/)` is modelled
by splitting on whitespace and discarding empty chunks; the only chunks
JavaScript's split produces beyond the maximal non-space runs are empty
strings at the ends, and those never survive the `word.length > 3` filter
that immediately follows. -/
def extractKeywords (text : String) : List String :=
  let replaced := (text.data.map Char.toLower).map
    (fun c => if jsIsWordChar c || jsIsSpace c then c else ' ')
  let toks := ((replaced.splitOnP (fun c => jsIsSpace c)).filter
    (fun w => ¬ w.isEmpty)).map String.mk
  (toks.filter (fun w => w.length > 3 && ¬ w ∈ stopWords)).take 20

/-! ### Inverted indexes (`Map<string, Paper[]>`, lines 89–138) -/

/-- A JavaScript `Map<string, Paper[]>` in key-insertion order. -/
abbrev PaperIdx := List (String × List Paper)

/-- `index.get(k) || []`. -/
def idxGetD (m : PaperIdx) (k : String) : List Paper :=
  match m.find? (fun e => e.1 = k) with
  | some e => e.2
  | none => []

/-- `if (!m.has(k)) m.set(k, []); m.get(k)!.push(p)`. -/
def idxPush (m : PaperIdx) (k : String) (p : Paper) : PaperIdx :=
  if m.any (fun e => e.1 = k) then
    m.map (fun e => if e.1 = k then (e.1, e.2 ++ [p]) else e)
  else
    m ++ [(k, [p])]

/-- `buildAuthorIndex` (lines 90–104): author, lower-cased then trimmed,
maps to the papers listing that author, over the given paper list. -/
def buildAuthorIndex (papers : List Paper) : PaperIdx :=
  papers.foldl (fun m paper =>
    paper.authors.foldl (fun m' author =>
      idxPush m' (strTrim (strLower author)) paper) m) []

/-- `buildVenueIndex` (lines 107–121): only papers with a truthy venue
contribute, keyed by the lower-cased, trimmed venue. -/
def buildVenueIndex (papers : List Paper) : PaperIdx :=
  papers.foldl (fun m paper =>
    match strTruthy paper.venue with
    | some v => idxPush m (strTrim (strLower v)) paper
    | none => m) []

/-- `buildKeywordIndex` (lines 124–138): keywords of `title + ' ' +
(abstract || '')` map to the papers containing them. -/
def buildKeywordIndex (papers : List Paper) : PaperIdx :=
  papers.foldl (fun m paper =>
    (extractKeywords (paper.title ++ " " ++ paper.abstract.getD "")).foldl
      (fun m' kw => idxPush m' kw paper) m) []

/-! ### The five relationship detectors -/

/-- `findAuthorRelationships` (lines 154–183). -/
def findAuthorRelationships (papers : List Paper) (authorIdx : PaperIdx) :
    List PaperRelationship :=
  papers.flatMap (fun paper =>
    paper.authors.flatMap (fun author =>
      (idxGetD authorIdx (strLower author)).filterMap (fun other =>
        if paper.id ≠ other.id then
          let shared := paper.authors.filter (fun a =>
            other.authors.any (fun oa => strLower oa = strLower a))
          if shared.length > 0 then
            some { sourceId := paper.id, targetId := other.id,
                   relationshipType := RelType.author,
                   strength := min (mkRat 9 10) (shared.length * mkRat 3 10),
                   metadata := some { authorOverlap := some shared } }
          else none
        else none)))

/-- The body of the inner `venuePapers.forEach` loop of
`findVenueRelationships`:  `Math.random() > 0.8` is sampled (and the call
counter advanced) only when the id check passes, matching the
short-circuit `&&` in the source. -/
def venueStep (rand : Nat → ℚ) (paper : Paper)
    (st2 : List PaperRelationship × Nat) (other : Paper) :
    List PaperRelationship × Nat :=
  if paper.id ≠ other.id then
    if rand st2.2 > mkRat 4 5 then
      (st2.1 ++ [{ sourceId := paper.id, targetId := other.id,
                   relationshipType := RelType.venue,
                   strength := mkRat 2 5,
                   metadata := some { venueMatch := some true } }],
       st2.2 + 1)
    else (st2.1, st2.2 + 1)
  else st2

/-- `findVenueRelationships` (lines 186–209). -/
def findVenueRelationships (papers : List Paper) (venueIdx : PaperIdx)
    (rand : Nat → ℚ) (k : Nat) : List PaperRelationship × Nat :=
  papers.foldl (fun st paper =>
    match strTruthy paper.venue with
    | none => st
    | some v =>
      (idxGetD venueIdx (strLower v)).foldl (venueStep rand paper) st)
    ([], k)

/-- The insertion-ordered counter map `relatedPapers` of
`findContentRelationships`: `m.set(k, (m.get(k) || 0) + 1)`. -/
def cntBump (m : List (String × Nat)) (k : String) : List (String × Nat) :=
  if m.any (fun e => e.1 = k) then
    m.map (fun e => if e.1 = k then (e.1, e.2 + 1) else e)
  else
    m ++ [(k, 1)]

/-- The body of the inner `keywordPapers.forEach` loop of
`findContentRelationships`: count the co-occurrence, skipping the paper
itself. -/
def contentStep (paper : Paper) (m : List (String × Nat)) (other : Paper) :
    List (String × Nat) :=
  if paper.id ≠ other.id then cntBump m other.id else m

/-- `findContentRelationships` (lines 212–248). -/
def findContentRelationships (papers : List Paper) (keywordIdx : PaperIdx) :
    List PaperRelationship :=
  papers.flatMap (fun paper =>
    let paperKeywords :=
      extractKeywords (paper.title ++ " " ++ paper.abstract.getD "")
    let related := paperKeywords.foldl (fun m kw =>
      (idxGetD keywordIdx kw).foldl (contentStep paper) m) []
    related.filterMap (fun e =>
      if e.2 ≥ 3 then
        match papers.find? (fun p => p.id = e.1) with
        | some _ =>
          some { sourceId := paper.id, targetId := e.1,
                 relationshipType := RelType.content,
                 strength := min (mkRat 8 10) (e.2 * mkRat 1 10),
                 metadata := some { sharedKeywords := some (paperKeywords.take 5) } }
        | none => none
      else none))

/-- The body of the `contemporaryPapers.slice(0, 3).forEach` loop of
`findTemporalRelationships`: one `Math.random()` call per contemporary. -/
def temporalStep (rand : Nat → ℚ) (p : Paper) (py : Int)
    (st : List PaperRelationship × Nat) (other : Paper) :
    List PaperRelationship × Nat :=
  if rand st.2 > mkRat 7 10 then
    (st.1 ++ [{ sourceId := p.id, targetId := other.id,
                relationshipType := RelType.temporal,
                strength := mkRat 3 10,
                metadata := some
                  { yearDifference := some (other.year.getD 0 - py).natAbs } }],
     st.2 + 1)
  else (st.1, st.2 + 1)

/-- The inner `contemporaryPapers.slice(0, 3).forEach` loop of
`findTemporalRelationships`. -/
def temporalEmit (p : Paper) (py : Int) (others : List Paper)
    (rand : Nat → ℚ) (k : Nat) : List PaperRelationship × Nat :=
  others.foldl (temporalStep rand p py) ([], k)

/-- `findTemporalRelationships` (lines 251–278).  The guard
`index < papers.length - 1` holds exactly when papers remain after the
current one, and `papers.slice(index + 1)` is that remainder. -/
def findTemporalRelationships :
    List Paper → (Nat → ℚ) → Nat → List PaperRelationship × Nat
  | [], _, k => ([], k)
  | p :: rest, rand, k =>
    match yearTruthy p, rest with
    | some py, _ :: _ =>
      let contemporaries := rest.filter (fun o =>
        match yearTruthy o with
        | some oy => (oy - py).natAbs ≤ 1
        | none => false)
      let st1 := temporalEmit p py (contemporaries.take 3) rand k
      let st2 := findTemporalRelationships rest rand st1.2
      (st1.1 ++ st2.1, st2.2)
    | _, _ => findTemporalRelationships rest rand k

/-- `findCitationRelationships` (lines 281–318).  `paperIdMap.has` amounts
to membership of the id among the given papers' ids. -/
def findCitationRelationships (papers : List Paper) :
    List PaperRelationship :=
  papers.flatMap (fun paper =>
    (paper.references.getD []).filterMap (fun refId =>
      if papers.any (fun p => p.id = refId) then
        some { sourceId := paper.id, targetId := refId,
               relationshipType := RelType.citation,
               strength := mkRat 9 10,
               metadata := some { citationCount := paper.citationCount } }
      else none) ++
    (paper.citations.getD []).filterMap (fun citId =>
      if papers.any (fun p => p.id = citId) then
        some { sourceId := citId, targetId := paper.id,
               relationshipType := RelType.citation,
               strength := mkRat 9 10,
               metadata := some { citationCount := paper.citationCount } }
      else none))

/-! ### Stratified sampling (`stratifiedSample`, lines 62–87) -/

/-- The keys of the `yearGroups` map, in insertion order (order of first
occurrence of each effective year among the papers). -/
def yearKeysOf (papers : List Paper) : List Int :=
  papers.foldl (fun acc p =>
    if effYear p ∈ acc then acc else acc ++ [effYear p]) []

/-- `Array.from(yearGroups.keys()).sort()`: the comparator-less JavaScript
sort compares the decimal string representations of the numbers. -/
def sortYearKeys (keys : List Int) : List Int :=
  sortByJs (fun a b => decide (toString a ≤ toString b)) keys

/-- Comparator `(a, b) => (b.citationCount || 0) - (a.citationCount || 0)`:
descending citation count. -/
def ccDescLe (a b : Paper) : Bool := decide (ccOr0 b ≤ ccOr0 a)

/-- `Math.ceil(sampleSize / yearsArray.length)` for natural inputs; the
guard keeps the (unused) division by zero of the empty-input case out of
the way exactly as the empty `forEach` loop does in the source. -/
def papersPerYearOf (sampleSize numYears : Nat) : Nat :=
  if numYears = 0 then 0 else (sampleSize + numYears - 1) / numYears

/-- `stratifiedSample` (lines 62–87): group by effective year, sort each
group by descending citation count, take `papersPerYear` from each group in
(string-)sorted year order, truncate to `sampleSize`. -/
def stratifiedSample (papers : List Paper) (sampleSize : Nat) : List Paper :=
  let keys := sortYearKeys (yearKeysOf papers)
  let perYear := papersPerYearOf sampleSize keys.length
  let sample := keys.flatMap (fun y =>
    (sortByJs ccDescLe (papers.filter (fun p => effYear p = y))).take perYear)
  sample.take sampleSize

/-! ### Deduplication and ranking (lines 320–355) -/

/-- String rendering of a relationship type, as used in the dedup keys. -/
def typeStr : RelType → String
  | RelType.citation => "citation"
  | RelType.content => "content"
  | RelType.author => "author"
  | RelType.temporal => "temporal"
  | RelType.venue => "venue"

/-- `` `${rel.sourceId}-${rel.targetId}-${rel.relationshipType}` ``. -/
def key1 (r : PaperRelationship) : String :=
  r.sourceId ++ "-" ++ r.targetId ++ "-" ++ typeStr r.relationshipType

/-- `` `${rel.targetId}-${rel.sourceId}-${rel.relationshipType}` ``. -/
def key2 (r : PaperRelationship) : String :=
  r.targetId ++ "-" ++ r.sourceId ++ "-" ++ typeStr r.relationshipType

/-- The `forEach` loop of `deduplicateRelationships`: keep a relationship
unless its forward or reversed key is already in `seen`; only the forward
key of a kept relationship is added to `seen`. -/
def dedupGo : List PaperRelationship → List String → List PaperRelationship
  | [], _ => []
  | r :: rest, seen =>
    if key1 r ∈ seen ∨ key2 r ∈ seen then dedupGo rest seen
    else r :: dedupGo rest (key1 r :: seen)

/-- `deduplicateRelationships` (lines 321–336). -/
def deduplicateRelationships (relationships : List PaperRelationship) :
    List PaperRelationship :=
  dedupGo relationships []

/-- The static type priority of `rankRelationships` (lines 342–348). -/
def typeWeight : RelType → ℚ
  | RelType.citation => 5
  | RelType.author => 4
  | RelType.content => 3
  | RelType.venue => 2
  | RelType.temporal => 1

/-- The ranking score `typeWeight[type] * strength`. -/
def relScore (r : PaperRelationship) : ℚ :=
  typeWeight r.relationshipType * r.strength

/-- `rankRelationships` (lines 339–355): stable sort by descending score. -/
def rankRelationships (relationships : List PaperRelationship) :
    List PaperRelationship :=
  sortByJs (fun a b => decide (relScore b ≤ relScore a)) relationships

/-! ### `analyzeRelationships` (lines 31–59) -/

/-- `Math.floor(Math.min(papers.length, Math.sqrt(50000)))`: since
`223² = 49729 ≤ 50000 < 50176 = 224²`, the square root lies strictly
between 223 and 224, so the floor of the minimum is `min n 223`. -/
def sampleSizeOf (n : Nat) : Nat := min n 223

/-- The sampled subset used by the detectors inside
`analyzeRelationships` (line 42). -/
def sampledOf (papers : List Paper) : List Paper :=
  stratifiedSample papers (sampleSizeOf papers.length)

/-- The merged candidate list accumulated by the five `push` calls of
`analyzeRelationships` (lines 47–51), in source order, together with the
random-call counter after the venue and temporal detectors have consumed
their shares.  Note that the three indexes are built over the *full* paper
list (lines 35–37) while the detectors iterate the sampled subset. -/
def mergedCandidates (papers : List Paper) (rand : Nat → ℚ) (k : Nat) :
    List PaperRelationship × Nat :=
  let sampled := sampledOf papers
  let authorIdx := buildAuthorIndex papers
  let venueIdx := buildVenueIndex papers
  let keywordIdx := buildKeywordIndex papers
  let rA := findAuthorRelationships sampled authorIdx
  let stV := findVenueRelationships sampled venueIdx rand k
  let rC := findContentRelationships sampled keywordIdx
  let stT := findTemporalRelationships sampled rand stV.2
  let rCit := findCitationRelationships sampled
  (rA ++ stV.1 ++ rC ++ stT.1 ++ rCit, stT.2)

/-- `analyzeRelationships` (lines 31–59): dedup, rank, `slice(0, 200)`. -/
def analyzeRelationships (papers : List Paper) (rand : Nat → ℚ) (k : Nat) :
    List PaperRelationship × Nat :=
  let st := mergedCandidates papers rand k
  ((rankRelationships (deduplicateRelationships st.1)).take 200, st.2)

/-! ### `analyzeRelationships` with exception-capable detectors

`analyzeRelationships` calls its five detectors in a straight line with no
`try`/`catch` (lines 47–51).  To reason about what happens when a detector
throws, the same control flow is expressed in the `Except` monad with the
detector bodies as parameters; instantiating them with the (total) source
detectors recovers `analyzeRelationships` exactly
(`analyzeRelationshipsWith_ok` below). -/

/-- The body of `analyzeRelationships` with each detector call routed
through a possibly-throwing function.  There is no handler anywhere: a
failure short-circuits the remainder of the body. -/
def analyzeRelationshipsWith {ε : Type}
    (dA : List Paper → PaperIdx → Except ε (List PaperRelationship))
    (dV : List Paper → PaperIdx → (Nat → ℚ) → Nat →
      Except ε (List PaperRelationship × Nat))
    (dC : List Paper → PaperIdx → Except ε (List PaperRelationship))
    (dT : List Paper → (Nat → ℚ) → Nat →
      Except ε (List PaperRelationship × Nat))
    (dCit : List Paper → Except ε (List PaperRelationship))
    (papers : List Paper) (rand : Nat → ℚ) (k : Nat) :
    Except ε (List PaperRelationship × Nat) := do
  let sampled := sampledOf papers
  let authorIdx := buildAuthorIndex papers
  let venueIdx := buildVenueIndex papers
  let keywordIdx := buildKeywordIndex papers
  let rA ← dA sampled authorIdx
  let stV ← dV sampled venueIdx rand k
  let rC ← dC sampled keywordIdx
  let stT ← dT sampled rand stV.2
  let rCit ← dCit sampled
  pure ((rankRelationships (deduplicateRelationships
    (rA ++ stV.1 ++ rC ++ stT.1 ++ rCit))).take 200, stT.2)

/-! ### `InstantCache` (`routes/research.ts`, lines 77–133) -/

/-- One stored cache entry (`CacheItem`): payload, insertion timestamp in
milliseconds, time-to-live in milliseconds. -/
structure CacheItem (α : Type) where
  data : α
  timestamp : Nat
  ttl : Nat
deriving DecidableEq, Repr

/-- The backing `Map<string, CacheItem>` in key-insertion order. -/
abbrev CacheState (α : Type) := List (String × CacheItem α)

/-- `private maxSize = 10000`. -/
def maxCacheSize : Nat := 10000

/-- `this.cache.delete(key)`. -/
def cacheDelete (st : CacheState α) (key : String) : CacheState α :=
  st.filter (fun e => ¬ e.1 = key)

/-- `this.cache.get(key)` without the expiry logic. -/
def cacheLookup (st : CacheState α) (key : String) : Option (CacheItem α) :=
  (st.find? (fun e => e.1 = key)).map (fun e => e.2)

/-- The first half of `cleanup` (lines 113–117): delete every expired
entry. -/
def cacheSweep (st : CacheState α) (now : Nat) : CacheState α :=
  st.filter (fun e => ¬ now - e.2.timestamp > e.2.ttl)

/-- The eviction loop of `cleanup` (lines 119–122):
`for (let i = 0; i < (this.cache.size - this.maxSize); i++)
 this.cache.delete(entriesToDelete[i][0])`.
The bound re-reads the live `this.cache.size`, which shrinks as entries
are deleted.  The unreachable out-of-bounds access (in JavaScript it would
throw on `undefined[0]`; it cannot happen because `i` stays below the
current size, which is at most `sorted.length`) is modelled as exiting. -/
def evictLoop (sorted : CacheState α) :
    Nat → CacheState α → Nat → CacheState α
  | 0, st, _ => st
  | fuel + 1, st, i =>
    if i < st.length - maxCacheSize then
      match sorted.get? i with
      | some e => evictLoop sorted fuel (cacheDelete st e.1) (i + 1)
      | none => st
    else st

/-- `cleanup` (lines 111–124): sweep expired entries, then, if still above
`maxSize`, delete oldest-by-timestamp entries through `evictLoop`.  The
fuel handed to `evictLoop` is the list length, which exceeds the number of
iterations the loop can make (each iteration increments `i`, the exit
bound never exceeds the current size, and the size never grows), so the
fuel-exhausted branch is dead and the recursion is exactly the source
loop. -/
def cacheCleanup (st : CacheState α) (now : Nat) : CacheState α :=
  let st1 := cacheSweep st now
  if st1.length > maxCacheSize then
    evictLoop (sortByJs (fun a b => decide (a.2.timestamp ≤ b.2.timestamp)) st1)
      st1.length st1 0
  else st1

/-- `set` (lines 87–97): run `cleanup` when at or above `maxSize`, then
store the entry (updating in place if the key exists, appending
otherwise) with `ttl = ttlMinutes * 60 * 1000`. -/
def cacheSet (st : CacheState α) (key : String) (data : α)
    (ttlMinutes : Nat) (now : Nat) : CacheState α :=
  let st1 := if st.length ≥ maxCacheSize then cacheCleanup st now else st
  let item : CacheItem α := { data := data, timestamp := now,
                              ttl := ttlMinutes * 60 * 1000 }
  if st1.any (fun e => e.1 = key) then
    st1.map (fun e => if e.1 = key then (key, item) else e)
  else
    st1 ++ [(key, item)]

/-- `get` (lines 99–109): a missing key yields `null`; an expired entry is
deleted and yields `null`; otherwise the stored payload is returned. -/
def cacheGet (st : CacheState α) (key : String) (now : Nat) :
    Option α × CacheState α :=
  match cacheLookup st key with
  | none => (none, st)
  | some item =>
    if now - item.timestamp > item.ttl then (none, cacheDelete st key)
    else (some item.data, st)

/-! ### The `/build-knowledge-graph` route (`routes/research.ts`, 1016–1132)

The Neo4j mirror write (line 1043) is an external collaborator whose
failure is swallowed by `.catch` and which does not touch the response or
the cache, so it is not part of the state modelled here. -/

/-- A connection as produced for `graphEdges`. -/
structure GConn where
  source : String
  target : String
  type : String
  strength : ℚ
deriving DecidableEq, Repr

/-- `relationships.map(rel => ({source, target, type: rel.relationshipType
|| 'semantic', strength: rel.strength || 0.5}))` (lines 1048–1050); the
type tag of a service relationship is a non-empty string, and a strength
of exactly 0 (falsy) would be replaced by 0.5. -/
def relToConn (rel : PaperRelationship) : GConn :=
  { source := rel.sourceId, target := rel.targetId,
    type := typeStr rel.relationshipType,
    strength := if rel.strength = 0 then mkRat 1 2 else rel.strength }

/-- `(paper.title || '').toLowerCase().split(' ').filter(w => w.length > 3)`
(lines 1115–1116); splitting on a literal single space. -/
def titleWords (title : String) : List String :=
  ((strLower title).splitOn " ").filter (fun w => w.length > 3)

/-- The body of the inner `j` loop of `generateGraphConnections`
(lines 1091–1128), iterating over the enumerated papers after index `i`.
State: accumulated connections, `connectionsForThisPaper`, random counter.
`Math.random()` is consumed only when the first three signals failed and
`connectionsForThisPaper === 0`, per the short-circuit `&&`. -/
def genInner (p1 : Paper) (i len maxConns maxPer : Nat) (rand : Nat → ℚ) :
    List (Nat × Paper) → List GConn → Nat → Nat → List GConn × Nat
  | [], conns, _, k => (conns, k)
  | (j, p2) :: rest, conns, cfp, k =>
    if cfp < maxPer ∧ conns.length < maxConns then
      let p1Id := if p1.id = "" then "paper-gen-" ++ toString i else p1.id
      let p2Id := if p2.id = "" then "paper-gen-" ++ toString j else p2.id
      let shared := p1.authors.filter (fun a => p2.authors.any (fun oa =>
        decide (List.IsInfix (strLower oa).data (strLower a).data) ||
        decide (List.IsInfix (strLower a).data (strLower oa).data)))
      if shared.length > 0 then
        genInner p1 i len maxConns maxPer rand rest
          (conns ++ [{ source := p1Id, target := p2Id,
                       type := "shared_author", strength := mkRat 8 10 }])
          (cfp + 1) k
      else if (yearTruthy p1).isSome ∧ (yearTruthy p2).isSome ∧
          (p1.year.getD 0 - p2.year.getD 0).natAbs ≤ 1 then
        genInner p1 i len maxConns maxPer rand rest
          (conns ++ [{ source := p1Id, target := p2Id,
                       type := "temporal_proximity", strength := mkRat 2 5 }])
          (cfp + 1) k
      else
        let common := (titleWords p1.title).filter
          (fun w => w ∈ titleWords p2.title)
        if common.length ≥ 2 then
          genInner p1 i len maxConns maxPer rand rest
            (conns ++ [{ source := p1Id, target := p2Id,
                         type := "title_overlap",
                         strength := min (mkRat 7 10) (common.length * mkRat 3 20) }])
            (cfp + 1) k
        else if cfp = 0 then
          if rand k < mkRat 1 100 ∧ 2 * j > 2 * i + len then
            genInner p1 i len maxConns maxPer rand rest
              (conns ++ [{ source := p1Id, target := p2Id,
                           type := "random_link", strength := mkRat 1 10 }])
              (cfp + 1) (k + 1)
          else genInner p1 i len maxConns maxPer rand rest conns cfp (k + 1)
        else genInner p1 i len maxConns maxPer rand rest conns cfp k
    else (conns, k)

/-- The outer `i` loop of `generateGraphConnections` (lines 1087–1129):
for each enumerated paper, run the inner loop over the papers after it. -/
def genOuter (len maxConns : Nat) (rand : Nat → ℚ) :
    List (Nat × Paper) → List GConn → Nat → List GConn × Nat
  | [], conns, k => (conns, k)
  | (i, p1) :: rest, conns, k =>
    if conns.length < maxConns then
      let maxPer := min 5 (len - 1)
      let st := genInner p1 i len maxConns maxPer rand rest conns 0 k
      genOuter len maxConns rand rest st.1 st.2
    else (conns, k)

/-- `generateGraphConnections` (lines 1083–1132), with
`maxConnections = Math.min(1000, papers.length * 2)`.  The float
comparison `j > i + papers.length / 2` is rendered as
`2 * j > 2 * i + papers.length`. -/
def generateGraphConnections (papers : List Paper) (rand : Nat → ℚ)
    (k : Nat) : List GConn × Nat :=
  genOuter papers.length (min 1000 (papers.length * 2)) rand
    papers.enum [] k

/-- A node as produced by `optimizePapersForFrontend` (lines 141–160).
The pass-through fields that are undefined for the request papers handled
here (`url`, `localFilePath`, `fileSize`, `similarity`, ...) are omitted;
`hasLocalFile` is their only derived field and is kept. -/
structure FrontendPaper where
  id : String
  title : String
  authors : List String
  year : Option Int
  citationCount : Nat
  abstract : String
  venue : String
  hasLocalFile : Bool
deriving DecidableEq, Repr

/-- `optimizePapersForFrontend` (lines 141–160) at clock value `now`
(`Date.now()` feeds the fallback id).  An array value is always truthy in
JavaScript, so `paper.authors ? paper.authors.slice(0, 3) : [...]` always
takes the first branch for the typed papers modelled here. -/
def optimizePapersForFrontend (papers : List Paper) (now : Nat) :
    List FrontendPaper :=
  (papers.enum).map (fun e =>
    { id := if e.2.id = "" then
        "paper-" ++ toString now ++ "-" ++ toString e.1 else e.2.id,
      title := if e.2.title = "" then "Untitled Paper" else e.2.title,
      authors := e.2.authors.take 3,
      year := yearTruthy e.2,
      citationCount := ccOr0 e.2,
      abstract := match strTruthy e.2.abstract with
        | some a => a.take 300 ++ (if a.length > 300 then "..." else "")
        | none => "No abstract available",
      venue := (strTruthy e.2.venue).getD "Unknown Venue",
      hasLocalFile := false })

/-- The `data` object of the route's success response (lines 1055–1064). -/
structure GraphResponseData where
  topic : String
  relationshipsFromService : List PaperRelationship
  graphNodes : List FrontendPaper
  graphEdges : List GConn
  databaseStored : Bool
  totalPapersProvided : Nat
  papersInGraph : Nat
  cached : Bool
deriving DecidableEq, Repr

/-- The success response body (lines 1052–1065); `success: true` is
implied by the constructor. -/
structure GraphResponse where
  message : String
  data : GraphResponseData
deriving DecidableEq, Repr

/-- Outcome of one `/build-knowledge-graph` request. -/
inductive BuildResult where
  | badRequest (message : String)
  | ok (response : GraphResponse)
deriving DecidableEq, Repr

/-- The cache key (line 1029):
`` `graph_${topic}_${ids.sort().join('_')}`.slice(0, 100) ``; the
comparator-less sort on strings is plain lexicographic order. -/
def graphCacheKey (topic : String) (papers : List Paper) : String :=
  ("graph_" ++ topic ++ "_" ++
    String.intercalate "_"
      (sortByJs (fun a b => decide (a ≤ b)) (papers.map Paper.id))).take 100

/-- The response assembled by the cache-miss path of the handler
(lines 1039–1065): take at most 500 papers, run the relationship service,
run the extra connection generator on the remaining random stream, and
package nodes, edges and counters with `cached: false`. -/
def freshGraphResponse (papers : List Paper) (currentTopic : String)
    (now : Nat) (rand : Nat → ℚ) (k : Nat) : GraphResponse :=
  let limitedPapers := papers.take 500
  let stR := analyzeRelationships limitedPapers rand k
  let stG := generateGraphConnections limitedPapers rand stR.2
  let allConnections := stR.1.map relToConn ++ stG.1
  { message := "Knowledge graph built with " ++
      toString limitedPapers.length ++ " nodes and " ++
      toString allConnections.length ++ " connections",
    data :=
      { topic := currentTopic,
        relationshipsFromService := stR.1,
        graphNodes := optimizePapersForFrontend limitedPapers now,
        graphEdges := allConnections,
        databaseStored := true,
        totalPapersProvided := papers.length,
        papersInGraph := limitedPapers.length,
        cached := false } }

/-- The `/build-knowledge-graph` handler (lines 1017–1080) at clock value
`now`: validate, consult `graphCache`, on a hit return the cached response
with `cached: true`, otherwise run the relationship service and the extra
connection generator, cache the response for 60 minutes and return it.
The third component records whether the build work
(sampling/index/detector/ranking) actually ran. -/
def buildKnowledgeGraph (papers : List Paper) (topic : Option String)
    (cache : CacheState GraphResponse) (now : Nat) (rand : Nat → ℚ)
    (k : Nat) : BuildResult × CacheState GraphResponse × Bool :=
  if papers.isEmpty then
    (BuildResult.badRequest "Papers array (non-empty) is required",
     cache, false)
  else
    let currentTopic := (strTruthy topic).getD "research_graph_topic"
    let key := graphCacheKey currentTopic papers
    let got := cacheGet cache key now
    match got.1 with
    | some resp =>
      (BuildResult.ok { resp with data := { resp.data with cached := true } },
       got.2, false)
    | none =>
      let resp := freshGraphResponse papers currentTopic now rand k
      (BuildResult.ok resp, cacheSet got.2 key resp 60 now, true)

/-! ### Concrete instances used when settling the claims -/

/-- Two papers linked by one reference id: the classic citation pair. -/
def citePairPapers : List Paper :=
  [{ id := "x", title := "", authors := [], references := some ["y"] },
   { id := "y", title := "", authors := [] }]

/-- The unique citation edge produced for `citePairPapers`. -/
def citePairRel : PaperRelationship :=
  { sourceId := "x", targetId := "y", relationshipType := RelType.citation,
    strength := mkRat 9 10, metadata := some { citationCount := none } }

/-- Paper `i` of the 224-paper corpus used to exercise the sampler cutoff:
distinct ids, strictly decreasing citation counts (so the sampler keeps
`p0`..`p222` and drops `p223`), and a shared author between the first and
the last paper. -/
def c3Paper (i : Nat) : Paper :=
  { id := "p" ++ toString i, title := "",
    authors := if i = 0 ∨ i = 223 then ["alice"] else [],
    citationCount := some (224 - i) }

/-- 224 papers: one more than the 223-paper sampler cap. -/
def c3Papers : List Paper := (List.range 224).map c3Paper

/-- The specification's dedup key read off a relationship: two
relationships collide when they share the unordered
`(sourceId, targetId)` pair *and* the `type`. -/
def sameKey (a b : PaperRelationship) : Prop :=
  a.relationshipType = b.relationshipType ∧
  ((a.sourceId = b.sourceId ∧ a.targetId = b.targetId) ∨
   (a.sourceId = b.targetId ∧ a.targetId = b.sourceId))

instance (a b : PaperRelationship) : Decidable (sameKey a b) := by
  unfold sameKey
  infer_instance

/-- Ids that avoid the `-` separator used to build the string dedup keys. -/
def hyphenFree (s : String) : Prop := ('-' : Char) ∉ s.data

instance (s : String) : Decidable (hyphenFree s) := by
  unfold hyphenFree
  infer_instance

/-- Papers whose ids contain the dedup-key separator `-`, engineered so
that two different unordered pairs produce colliding string keys:
`"a-b"/"c"` and `"a"/"b-c"` both key to `"a-b-c-citation"`. -/
def hyphenPapers : List Paper :=
  [{ id := "a-b", title := "", authors := [], references := some ["c"] },
   { id := "a", title := "", authors := [], references := some ["b-c"] },
   { id := "b-c", title := "", authors := [], citations := some ["a"] },
   { id := "c", title := "", authors := [] }]

/-- A paper whose `citations` list names the other paper: the citation
detector then emits the edge with the *named* paper as source. -/
def crossCitePapers : List Paper :=
  [{ id := "x", title := "", authors := [], citations := some ["y"] },
   { id := "y", title := "", authors := [] }]

/-- Two distinct papers sharing the *same* id, from the same year. -/
def dupIdPapers : List Paper :=
  [{ id := "a", title := "", authors := [], year := some 2020 },
   { id := "a", title := "", authors := [], year := some 2020 }]

/-- A paper listing its own id among its references. -/
def selfCitePapers : List Paper :=
  [{ id := "s", title := "", authors := [], references := some ["s"] }]

/-- Two contemporary papers with distinct ids. -/
def twoYearPapers : List Paper :=
  [{ id := "a", title := "", authors := [], year := some 2020 },
   { id := "b", title := "", authors := [], year := some 2020 }]

/-- A full cache: 10000 distinct keys, all entries fresh at time 0. -/
def bigCacheState : CacheState Nat :=
  (List.range 10000).map (fun i =>
    (String.mk (List.replicate i 'a'),
     { data := 0, timestamp := 0, ttl := 3600000 }))

/-! ## General lemmas -/

theorem insertLe_perm (le : α → α → Bool) (x : α) (l : List α) :
    List.Perm (insertLe le x l) (x :: l) := by
  induction l with
  | nil => simp [insertLe]
  | cons y ys ih =>
    simp only [insertLe]
    split
    · exact List.Perm.refl _
    · exact (List.Perm.cons y ih).trans (List.Perm.swap x y ys)

theorem sortByJs_perm (le : α → α → Bool) (l : List α) :
    List.Perm (sortByJs le l) l := by
  induction l with
  | nil => simp [sortByJs]
  | cons x xs ih =>
    exact (insertLe_perm le x (sortByJs le xs)).trans (List.Perm.cons x ih)

theorem length_sortByJs (le : α → α → Bool) (l : List α) :
    (sortByJs le l).length = l.length :=
  (sortByJs_perm le l).length_eq

theorem mem_sortByJs {le : α → α → Bool} {l : List α} {x : α} :
    x ∈ sortByJs le l ↔ x ∈ l :=
  (sortByJs_perm le l).mem_iff

theorem exceptBind_ok {ε α β : Type} (a : α) (f : α → Except ε β) :
    (Except.ok (ε := ε) a >>= f) = f a := rfl

theorem exceptBind_error {ε α β : Type} (e : ε) (f : α → Except ε β) :
    (Except.error (α := α) e >>= f) = Except.error (α := β) e := rfl

/-- Instantiating the exception-capable pipeline with the actual (total)
detectors recovers `analyzeRelationships` exactly: the two definitions
share their control flow. -/
theorem analyzeRelationshipsWith_ok {ε : Type} (papers : List Paper)
    (rand : Nat → ℚ) (k : Nat) :
    analyzeRelationshipsWith (ε := ε)
      (fun ps idx => Except.ok (findAuthorRelationships ps idx))
      (fun ps idx r n => Except.ok (findVenueRelationships ps idx r n))
      (fun ps idx => Except.ok (findContentRelationships ps idx))
      (fun ps r n => Except.ok (findTemporalRelationships ps r n))
      (fun ps => Except.ok (findCitationRelationships ps))
      papers rand k = Except.ok (analyzeRelationships papers rand k) := rfl

theorem foldlYearKeys_nodup (l : List Paper) :
    ∀ acc : List Int, acc.Nodup →
    (l.foldl (fun acc p =>
      if effYear p ∈ acc then acc else acc ++ [effYear p]) acc).Nodup := by
  induction l with
  | nil => intro acc hacc; simpa using hacc
  | cons p ps ih =>
    intro acc hacc
    simp only [List.foldl_cons]
    by_cases h : effYear p ∈ acc
    · simpa [h] using ih acc hacc
    · have : (acc ++ [effYear p]).Nodup := by
        simp [List.nodup_append, hacc, h]
      simpa [h] using ih _ this

theorem yearKeysOf_nodup (papers : List Paper) : (yearKeysOf papers).Nodup :=
  foldlYearKeys_nodup papers [] (by simp)

/-- Summing the per-year group contributions over distinct year keys never
exceeds the total paper count: the groups are disjoint. -/
theorem stratGroups_length_le (perYear : Nat) :
    ∀ (keys : List Int) (papers : List Paper), keys.Nodup →
    (keys.flatMap (fun y =>
      (sortByJs ccDescLe (papers.filter (fun p =>
        effYear p = y))).take perYear)).length ≤ papers.length := by
  intro keys
  induction keys with
  | nil => intro papers _; simp
  | cons y ks ih =>
    intro papers hnd
    rw [List.flatMap_cons, List.length_append]
    have hy : y ∉ ks := (List.nodup_cons.mp hnd).1
    have h1 : ((sortByJs ccDescLe (papers.filter (fun p =>
        effYear p = y))).take perYear).length ≤
        (papers.filter (fun p => effYear p = y)).length := by
      refine le_trans (List.length_take_le' _ _) ?_
      rw [length_sortByJs]
    have hcong : ∀ y' ∈ ks,
        (sortByJs ccDescLe (papers.filter (fun p =>
          effYear p = y'))).take perYear =
        (sortByJs ccDescLe ((papers.filter (fun p =>
          ¬ effYear p = y)).filter (fun p =>
          effYear p = y'))).take perYear := by
      intro y' hy'
      have hne : y' ≠ y := fun h => hy (h ▸ hy')
      rw [List.filter_filter]
      congr 2
      apply List.filter_congr
      intro p _
      by_cases hp : effYear p = y'
      · simp [hp, hne]
      · simp [hp]
    rw [List.flatMap_congr hcong]
    have h2 := ih (papers.filter (fun p => ¬ effYear p = y))
      (List.nodup_cons.mp hnd).2
    have h3 := List.length_eq_length_filter_add
      (l := papers) (fun p => decide (effYear p = y))
    simp only [decide_not] at h2 h3 ⊢
    omega

/-- Claim C8: the stratified sampler returns at most
`min targetSize papers.length` papers, for every input. -/
theorem stratifiedSample_length_le (papers : List Paper)
    (targetSize : Nat) :
    (stratifiedSample papers targetSize).length ≤
      min targetSize papers.length := by
  refine le_min (List.length_take_le _ _) ?_
  simp only [stratifiedSample]
  refine le_trans (List.length_take_le' _ _) ?_
  have hnd : (sortYearKeys (yearKeysOf papers)).Nodup := by
    have := (sortByJs_perm (fun a b => decide (toString a ≤ toString b))
      (yearKeysOf papers)).symm.nodup (yearKeysOf_nodup papers)
    simpa [sortYearKeys] using this
  exact stratGroups_length_le _ _ papers hnd

/-! Lemmas about `InstantCache`. -/

theorem cacheDelete_sublist {α : Type} (l : CacheState α) (k : String) :
    (cacheDelete l k).Sublist l :=
  List.filter_sublist l

theorem cacheDelete_length {α : Type} (l : CacheState α) (k : String)
    (hnd : (l.map Prod.fst).Nodup) (hk : k ∈ l.map Prod.fst) :
    (cacheDelete l k).length + 1 = l.length := by
  induction l with
  | nil => simp at hk
  | cons e tl ih =>
    simp only [List.map_cons, List.nodup_cons] at hnd
    by_cases h : e.1 = k
    · simp [cacheDelete, List.filter_cons, h]
      intro a b hab hak
      have ha : a ∈ List.map Prod.fst tl := List.mem_map_of_mem Prod.fst hab
      rw [hak, ← h] at ha
      exact hnd.1 ha
    · have hk' : k ∈ tl.map Prod.fst := by
        rcases List.mem_cons.mp hk with h1 | h1
        · exact absurd h1.symm h
        · exact h1
      have hrec := ih hnd.2 hk'
      simp only [cacheDelete, List.filter_cons] at hrec ⊢
      rw [if_pos (by simp [h])]
      simp only [List.length_cons]
      omega

theorem cacheSweep_sublist {α : Type} (st : CacheState α) (now : Nat) :
    (cacheSweep st now).Sublist st :=
  List.filter_sublist st

theorem fstMap_replace {α : Type} (l : CacheState α) (key : String)
    (item : CacheItem α) :
    (l.map (fun e => if e.1 = key then (key, item) else e)).map Prod.fst =
      l.map Prod.fst := by
  rw [List.map_map]
  apply List.map_congr_left
  intro e _
  by_cases h : e.1 = key
  · simp [h]
  · simp [h]

/-- One successful step of the eviction loop, with the sorted snapshot in
head form. -/
theorem evictLoop_succ_cons {α : Type} (e0 : String × CacheItem α)
    (tl st : CacheState α) (fuel : Nat) :
    evictLoop (e0 :: tl) (fuel + 1) st 0 =
      if 0 < st.length - maxCacheSize then
        evictLoop (e0 :: tl) fuel (cacheDelete st e0.1) 1
      else st := rfl

/-- The eviction loop exits as soon as `i` reaches the live bound. -/
theorem evictLoop_exit {α : Type} (sorted st : CacheState α)
    (fuel i : Nat) (h : ¬ i < st.length - maxCacheSize) :
    evictLoop sorted fuel st i = st := by
  cases fuel with
  | zero => rfl
  | succ n =>
    simp only [evictLoop]
    rw [if_neg h]

/-- `cleanup`, started from a legal map state within one entry of the
threshold, leaves at most `maxSize` entries (and only ever removes
entries). -/
theorem cacheCleanup_bounded {α : Type} (st : CacheState α) (now : Nat)
    (hnd : (st.map Prod.fst).Nodup) (hsz : st.length ≤ maxCacheSize + 1) :
    (cacheCleanup st now).length ≤ maxCacheSize ∧
    (cacheCleanup st now).Sublist st := by
  have hmsub := cacheSweep_sublist st now
  have hmnd : ((cacheSweep st now).map Prod.fst).Nodup :=
    hnd.sublist (hmsub.map Prod.fst)
  have hmlen := hmsub.length_le
  simp only [cacheCleanup]
  by_cases hgt : (cacheSweep st now).length > maxCacheSize
  · rw [if_pos hgt]
    have hmeq : (cacheSweep st now).length = maxCacheSize + 1 := by omega
    obtain ⟨e0, tl, hs⟩ : ∃ e0 tl,
        sortByJs (fun a b => decide (a.2.timestamp ≤ b.2.timestamp))
          (cacheSweep st now) = e0 :: tl := by
      rcases hsv : sortByJs (fun a b => decide (a.2.timestamp ≤ b.2.timestamp))
          (cacheSweep st now) with _ | ⟨a, b⟩
      · exfalso
        have hp := (sortByJs_perm
          (fun a b => decide (a.2.timestamp ≤ b.2.timestamp))
          (cacheSweep st now)).length_eq
        rw [hsv] at hp
        simp at hp
        omega
      · exact ⟨a, b, hsv⟩
    have he0 : e0 ∈ cacheSweep st now := by
      have : e0 ∈ e0 :: tl := List.mem_cons_self e0 tl
      rw [← hs] at this
      exact mem_sortByJs.mp this
    have he0k : e0.1 ∈ (cacheSweep st now).map Prod.fst :=
      List.mem_map_of_mem Prod.fst he0
    have hdel := cacheDelete_length (cacheSweep st now) e0.1 hmnd he0k
    rw [hs, hmeq, evictLoop_succ_cons]
    rw [if_pos (by omega : 0 < (cacheSweep st now).length - maxCacheSize)]
    rw [evictLoop_exit _ _ _ _ (by omega :
      ¬ 1 < (cacheDelete (cacheSweep st now) e0.1).length - maxCacheSize)]
    constructor
    · omega
    · exact (cacheDelete_sublist _ _).trans hmsub
  · rw [if_neg hgt]
    exact ⟨by omega, hmsub⟩

/-! ## Claim C9 — cache size after `set` -/

/-- Claim C9 (counterexample): a legal cache state holding exactly 10000
distinct fresh entries; inserting a fresh key sweeps nothing (nothing is
expired), evicts nothing (the size does not *exceed* the threshold), and
appends, leaving 10001 = maxSize + 1 stored entries. -/
theorem cacheSet_exceeds_maxSize_counterexample :
    (bigCacheState.map Prod.fst).Nodup ∧
    (cacheSet bigCacheState "b" 0 60 0).length = maxCacheSize + 1 := by
  have hkey : ∀ i : Nat, String.mk (List.replicate i 'a') ≠ "b" := by
    intro i h
    have hd : List.replicate i 'a' = ("b" : String).data :=
      congrArg String.data h
    have hb : ("b" : String).data = ['b'] := by decide
    rw [hb] at hd
    have hlen : i = 1 := by simpa using congrArg List.length hd
    subst hlen
    simp at hd
  have hnd : (bigCacheState.map Prod.fst).Nodup := by
    simp only [bigCacheState, List.map_map]
    refine List.Nodup.map ?_ (List.nodup_range 10000)
    intro i j hij
    have : List.replicate i 'a' = List.replicate j 'a' :=
      congrArg String.data hij
    simpa using congrArg List.length this
  have hlen : bigCacheState.length = 10000 := by
    simp [bigCacheState]
  have hsweep : cacheSweep bigCacheState 0 = bigCacheState := by
    apply List.filter_eq_self.mpr
    intro e he
    obtain ⟨i, _, rfl⟩ := List.mem_map.mp he
    simp
  have hany : bigCacheState.any (fun e => e.1 = "b") = false := by
    rw [List.any_eq_false]
    intro e he
    obtain ⟨i, _, rfl⟩ := List.mem_map.mp he
    simpa using hkey i
  refine ⟨hnd, ?_⟩
  have htrig : bigCacheState.length ≥ maxCacheSize := by
    rw [hlen]
    decide
  have hnotgt : ¬ (cacheSweep bigCacheState 0).length > maxCacheSize := by
    rw [hsweep, hlen]
    decide
  simp only [cacheSet]
  rw [if_pos htrig]
  simp only [cacheCleanup]
  rw [if_neg hnotgt, hsweep, hany]
  simp [hlen, maxCacheSize]

/-- Claim C9 (amended): on insert at or above the threshold, `set` sweeps
expired entries and then evicts oldest entries only until the size is *at*
the threshold, after which the new entry is stored — so from any legal
state within one entry of the threshold, a `set` leaves at most
`maxSize + 1 = 10001` entries (and, per the counterexample, can leave
exactly 10001). -/
theorem cacheSet_bounded {α : Type} (st : CacheState α) (key : String)
    (d : α) (ttlM now : Nat) (hnd : (st.map Prod.fst).Nodup)
    (hsz : st.length ≤ maxCacheSize + 1) :
    (cacheSet st key d ttlM now).length ≤ maxCacheSize + 1 ∧
    ((cacheSet st key d ttlM now).map Prod.fst).Nodup := by
  simp only [cacheSet]
  by_cases htrig : st.length ≥ maxCacheSize
  · rw [if_pos htrig]
    obtain ⟨hclen, hcsub⟩ := cacheCleanup_bounded st now hnd hsz
    have hcnd : ((cacheCleanup st now).map Prod.fst).Nodup :=
      hnd.sublist (hcsub.map Prod.fst)
    by_cases hany : (cacheCleanup st now).any (fun e => e.1 = key) = true
    · rw [if_pos hany]
      refine ⟨by rw [List.length_map]; omega, ?_⟩
      rw [fstMap_replace]
      exact hcnd
    · rw [if_neg hany]
      refine ⟨by rw [List.length_append]; simp; omega, ?_⟩
      rw [List.map_append]
      simp only [List.map_cons, List.map_nil]
      rw [List.nodup_append]
      refine ⟨hcnd, List.nodup_singleton key, ?_⟩
      intro a ha hb
      simp only [List.mem_singleton] at hb
      subst hb
      obtain ⟨e, he, hek⟩ := List.mem_map.mp ha
      exact (List.any_eq_false.mp (Bool.eq_false_iff.mpr hany) e he)
        (by simpa using hek)
  · rw [if_neg htrig]
    by_cases hany : st.any (fun e => e.1 = key) = true
    · rw [if_pos hany]
      refine ⟨by rw [List.length_map]; omega, ?_⟩
      rw [fstMap_replace]
      exact hnd
    · rw [if_neg hany]
      refine ⟨by rw [List.length_append]; simp; omega, ?_⟩
      rw [List.map_append]
      simp only [List.map_cons, List.map_nil]
      rw [List.nodup_append]
      refine ⟨hnd, List.nodup_singleton key, ?_⟩
      intro a ha hb
      simp only [List.mem_singleton] at hb
      subst hb
      obtain ⟨e, he, hek⟩ := List.mem_map.mp ha
      exact (List.any_eq_false.mp (Bool.eq_false_iff.mpr hany) e he)
        (by simpa using hek)

/-- Witness for `cacheSet_bounded`: inserting into the empty cache. -/
theorem cacheSet_bounded_witness :
    (cacheSet ([] : CacheState Nat) "k" 0 60 0).length ≤ maxCacheSize + 1 ∧
    ((cacheSet ([] : CacheState Nat) "k" 0 60 0).map Prod.fst).Nodup :=
  cacheSet_bounded [] "k" 0 60 0 (by simp) (by simp)

/-! Membership and shape lemmas for the detectors and the
dedup/rank/truncate pipeline. -/

theorem dedupGo_subset :
    ∀ (l : List PaperRelationship) (seen : List String),
    ∀ r ∈ dedupGo l seen, r ∈ l := by
  intro l
  induction l with
  | nil => intro seen r hr; simp [dedupGo] at hr
  | cons x xs ih =>
    intro seen r hr
    simp only [dedupGo] at hr
    split at hr
    · exact List.mem_cons_of_mem x (ih seen r hr)
    · rcases List.mem_cons.mp hr with h | h
      · exact h ▸ List.mem_cons_self x xs
      · exact List.mem_cons_of_mem x (ih _ r h)

/-- Everything `analyzeRelationships` returns is one of the merged
candidates: dedup only drops, ranking permutes, truncation drops. -/
theorem mem_of_mem_analyze {papers : List Paper} {rand : Nat → ℚ} {k : Nat}
    {r : PaperRelationship}
    (hr : r ∈ (analyzeRelationships papers rand k).1) :
    r ∈ (mergedCandidates papers rand k).1 := by
  simp only [analyzeRelationships] at hr
  have h1 := List.mem_of_mem_take hr
  have h2 := mem_sortByJs.mp (by simpa [rankRelationships] using h1)
  exact dedupGo_subset _ _ r (by simpa [deduplicateRelationships] using h2)

theorem stratifiedSample_subset {papers : List Paper} {n : Nat} {p : Paper}
    (hp : p ∈ stratifiedSample papers n) : p ∈ papers := by
  simp only [stratifiedSample] at hp
  have h1 := List.mem_of_mem_take hp
  obtain ⟨y, _, h2⟩ := List.mem_flatMap.mp h1
  have h3 := mem_sortByJs.mp (List.mem_of_mem_take h2)
  exact (List.mem_filter.mp h3).1

theorem sampledOf_subset {papers : List Paper} {p : Paper}
    (hp : p ∈ sampledOf papers) : p ∈ papers :=
  stratifiedSample_subset hp

theorem idxGetD_mem {m : PaperIdx} {k : String} {p : Paper}
    (hp : p ∈ idxGetD m k) : ∃ e ∈ m, p ∈ e.2 := by
  unfold idxGetD at hp
  cases hf : m.find? (fun e => e.1 = k) with
  | none => rw [hf] at hp; simp at hp
  | some e =>
    rw [hf] at hp
    exact ⟨e, List.mem_of_find?_eq_some hf, hp⟩

theorem idxPush_values {P : Paper → Prop} {m : PaperIdx} {k : String}
    {p : Paper} (hm : ∀ e ∈ m, ∀ q ∈ e.2, P q) (hp : P p) :
    ∀ e ∈ idxPush m k p, ∀ q ∈ e.2, P q := by
  intro e he q hq
  unfold idxPush at he
  split at he
  · obtain ⟨e0, he0, heq⟩ := List.mem_map.mp he
    by_cases h : e0.1 = k
    · rw [if_pos h] at heq
      rw [← heq] at hq
      rcases List.mem_append.mp hq with h1 | h1
      · exact hm e0 he0 q h1
      · rw [List.mem_singleton.mp h1]; exact hp
    · rw [if_neg h] at heq
      exact hm e0 he0 q (heq ▸ hq)
  · rcases List.mem_append.mp he with h1 | h1
    · exact hm e h1 q hq
    · rw [List.mem_singleton.mp h1] at hq
      rw [List.mem_singleton.mp hq]
      exact hp

theorem buildAuthorIndex_values (papers : List Paper) :
    ∀ e ∈ buildAuthorIndex papers, ∀ q ∈ e.2, q ∈ papers := by
  have inner : ∀ (p : Paper) (hp : p ∈ papers) (as : List String)
      (m : PaperIdx) (hm : ∀ e ∈ m, ∀ q ∈ e.2, q ∈ papers),
      ∀ e ∈ as.foldl (fun m' a =>
        idxPush m' (strTrim (strLower a)) p) m, ∀ q ∈ e.2, q ∈ papers := by
    intro p hp as
    induction as with
    | nil => intro m hm; exact hm
    | cons a as' ih =>
      intro m hm
      exact ih _ (idxPush_values hm hp)
  have outer : ∀ (l : List Paper) (hl : ∀ p ∈ l, p ∈ papers)
      (m : PaperIdx) (hm : ∀ e ∈ m, ∀ q ∈ e.2, q ∈ papers),
      ∀ e ∈ l.foldl (fun m' paper => paper.authors.foldl (fun m'' a =>
        idxPush m'' (strTrim (strLower a)) paper) m') m,
      ∀ q ∈ e.2, q ∈ papers := by
    intro l
    induction l with
    | nil => intro _ m hm; exact hm
    | cons p ps ih =>
      intro hl m hm
      exact ih (fun x hx => hl x (List.mem_cons_of_mem p hx)) _
        (inner p (hl p (List.mem_cons_self p ps)) p.authors m hm)
  exact outer papers (fun _ h => h) [] (by simp)

theorem buildVenueIndex_values (papers : List Paper) :
    ∀ e ∈ buildVenueIndex papers, ∀ q ∈ e.2, q ∈ papers := by
  have outer : ∀ (l : List Paper) (hl : ∀ p ∈ l, p ∈ papers)
      (m : PaperIdx) (hm : ∀ e ∈ m, ∀ q ∈ e.2, q ∈ papers),
      ∀ e ∈ l.foldl (fun m' paper =>
        match strTruthy paper.venue with
        | some v => idxPush m' (strTrim (strLower v)) paper
        | none => m') m,
      ∀ q ∈ e.2, q ∈ papers := by
    intro l
    induction l with
    | nil => intro _ m hm; exact hm
    | cons p ps ih =>
      intro hl m hm
      simp only [List.foldl_cons]
      cases hv : strTruthy p.venue with
      | none =>
        exact ih (fun x hx => hl x (List.mem_cons_of_mem p hx)) m hm
      | some v =>
        exact ih (fun x hx => hl x (List.mem_cons_of_mem p hx)) _
          (idxPush_values hm (hl p (List.mem_cons_self p ps)))
  exact outer papers (fun _ h => h) [] (by simp)

/-- Shape of an author edge: author type, source from the iterated papers,
target from the author index, distinct endpoint ids. -/
theorem author_shape {ps : List Paper} {idx : PaperIdx}
    {r : PaperRelationship} (hr : r ∈ findAuthorRelationships ps idx) :
    r.relationshipType = RelType.author ∧
    (∃ p ∈ ps, p.id = r.sourceId) ∧
    (∃ e ∈ idx, ∃ q ∈ e.2, q.id = r.targetId) ∧
    r.sourceId ≠ r.targetId := by
  simp only [findAuthorRelationships] at hr
  obtain ⟨paper, hpaper, hr⟩ := List.mem_flatMap.mp hr
  obtain ⟨author, _, hr⟩ := List.mem_flatMap.mp hr
  obtain ⟨other, hother, hsome⟩ := List.mem_filterMap.mp hr
  obtain ⟨e, he, hqe⟩ := idxGetD_mem hother
  split at hsome
  · split at hsome
    · cases hsome
      refine ⟨rfl, ⟨paper, hpaper, rfl⟩, ⟨e, he, other, hqe, rfl⟩, ?_⟩
      simpa using ‹paper.id ≠ other.id›
    · exact absurd hsome (by simp)
  · exact absurd hsome (by simp)

/-- Shape of the relationships accumulated by the inner venue loop. -/
theorem venueStep_fold_shape {rand : Nat → ℚ} {paper : Paper} :
    ∀ (vps : List Paper) (st : List PaperRelationship × Nat)
      (r : PaperRelationship),
    r ∈ (vps.foldl (venueStep rand paper) st).1 → r ∈ st.1 ∨
      (r.relationshipType = RelType.venue ∧ r.sourceId = paper.id ∧
       (∃ q ∈ vps, q.id = r.targetId) ∧ r.sourceId ≠ r.targetId) := by
  intro vps
  induction vps with
  | nil => intro st r hr; exact Or.inl hr
  | cons o os ih =>
    intro st r hr
    rw [List.foldl_cons] at hr
    rcases ih _ r hr with h | h
    · simp only [venueStep] at h
      by_cases hpo : paper.id ≠ o.id
      · rw [if_pos hpo] at h
        by_cases hrand : rand st.2 > mkRat 4 5
        · rw [if_pos hrand] at h
          rcases List.mem_append.mp h with h1 | h1
          · exact Or.inl h1
          · rw [List.mem_singleton.mp h1]
            exact Or.inr ⟨rfl, rfl,
              ⟨o, List.mem_cons_self o os, rfl⟩, by simpa using hpo⟩
        · rw [if_neg hrand] at h
          exact Or.inl h
      · rw [if_neg hpo] at h
        exact Or.inl h
    · obtain ⟨ht, hs, ⟨q, hq, hqt⟩, hne⟩ := h
      exact Or.inr ⟨ht, hs, ⟨q, List.mem_cons_of_mem o hq, hqt⟩, hne⟩

/-- Shape of a venue edge: venue type, source from the iterated papers,
target from the venue index, distinct endpoint ids. -/
theorem findVenue_shape {ps : List Paper} {idx : PaperIdx} {rand : Nat → ℚ}
    {k : Nat} {r : PaperRelationship}
    (hr : r ∈ (findVenueRelationships ps idx rand k).1) :
    r.relationshipType = RelType.venue ∧
    (∃ p ∈ ps, p.id = r.sourceId) ∧
    (∃ e ∈ idx, ∃ q ∈ e.2, q.id = r.targetId) ∧
    r.sourceId ≠ r.targetId := by
  have gen : ∀ (l : List Paper), (∀ p ∈ l, p ∈ ps) →
      ∀ (st : List PaperRelationship × Nat),
      (∀ r' ∈ st.1, r'.relationshipType = RelType.venue ∧
        (∃ p ∈ ps, p.id = r'.sourceId) ∧
        (∃ e ∈ idx, ∃ q ∈ e.2, q.id = r'.targetId) ∧
        r'.sourceId ≠ r'.targetId) →
      ∀ r' ∈ (l.foldl (fun st paper =>
        match strTruthy paper.venue with
        | none => st
        | some v =>
          (idxGetD idx (strLower v)).foldl (venueStep rand paper) st)
        st).1,
      r'.relationshipType = RelType.venue ∧
        (∃ p ∈ ps, p.id = r'.sourceId) ∧
        (∃ e ∈ idx, ∃ q ∈ e.2, q.id = r'.targetId) ∧
        r'.sourceId ≠ r'.targetId := by
    intro l
    induction l with
    | nil => intro _ st hst; exact hst
    | cons p l' ih =>
      intro hl st hst
      rw [List.foldl_cons]
      cases hv : strTruthy p.venue with
      | none =>
        exact ih (fun x hx => hl x (List.mem_cons_of_mem p hx)) st hst
      | some v =>
        refine ih (fun x hx => hl x (List.mem_cons_of_mem p hx)) _ ?_
        intro r' hr'
        rcases venueStep_fold_shape _ st r' hr' with h | h
        · exact hst r' h
        · obtain ⟨ht, hs, ⟨q, hq, hqt⟩, hne⟩ := h
          obtain ⟨e, he, hqe⟩ := idxGetD_mem hq
          exact ⟨ht, ⟨p, hl p (List.mem_cons_self p l'), hs.symm⟩,
            ⟨e, he, q, hqe, hqt⟩, hne⟩
  have := gen ps (fun _ h => h) ([], k) (by simp) r
  apply this
  simpa [findVenueRelationships] using hr

theorem cntBump_keys {m : List (String × Nat)} {k : String} :
    ∀ x ∈ cntBump m k, x.1 = k ∨ x.1 ∈ m.map Prod.fst := by
  intro x hx
  unfold cntBump at hx
  split at hx
  · obtain ⟨y, hy, hyx⟩ := List.mem_map.mp hx
    by_cases h : y.1 = k
    · rw [if_pos h] at hyx
      left; rw [← hyx]; exact h
    · rw [if_neg h] at hyx
      right; rw [← hyx]; exact List.mem_map_of_mem Prod.fst hy
  · rcases List.mem_append.mp hx with h | h
    · right; exact List.mem_map_of_mem Prod.fst h
    · left; rw [List.mem_singleton.mp h]

/-- Keys of the `relatedPapers` counter map are never the paper's own id:
the inner loop skips the paper itself. -/
theorem contentRelated_ne {paper : Paper} {idx : PaperIdx} :
    ∀ (kws : List String) (m : List (String × Nat)),
    (∀ x ∈ m, ¬ x.1 = paper.id) →
    ∀ x ∈ kws.foldl (fun m' kw =>
      (idxGetD idx kw).foldl (contentStep paper) m') m,
    ¬ x.1 = paper.id := by
  have inner : ∀ (others : List Paper) (m : List (String × Nat)),
      (∀ x ∈ m, ¬ x.1 = paper.id) →
      ∀ x ∈ others.foldl (contentStep paper) m, ¬ x.1 = paper.id := by
    intro others
    induction others with
    | nil => intro m hm; exact hm
    | cons o os ih =>
      intro m hm
      rw [List.foldl_cons]
      refine ih _ ?_
      intro x hx
      simp only [contentStep] at hx
      by_cases hne : paper.id ≠ o.id
      · rw [if_pos hne] at hx
        rcases cntBump_keys x hx with h | h
        · rw [h]; intro hc; exact hne hc.symm
        · obtain ⟨y, hy, hyx⟩ := List.mem_map.mp h
          rw [← hyx]; exact hm y hy
      · rw [if_neg hne] at hx
        exact hm x hx
  intro kws
  induction kws with
  | nil => intro m hm; exact hm
  | cons kw kws' ih =>
    intro m hm
    rw [List.foldl_cons]
    exact ih _ (inner _ m hm)

/-- Shape of a content edge: content type, both endpoints among the
iterated papers, distinct endpoint ids. -/
theorem content_shape {ps : List Paper} {idx : PaperIdx}
    {r : PaperRelationship} (hr : r ∈ findContentRelationships ps idx) :
    r.relationshipType = RelType.content ∧
    (∃ p ∈ ps, p.id = r.sourceId) ∧
    (∃ q ∈ ps, q.id = r.targetId) ∧
    r.sourceId ≠ r.targetId := by
  simp only [findContentRelationships] at hr
  obtain ⟨paper, hpaper, hr⟩ := List.mem_flatMap.mp hr
  obtain ⟨x, hx, hsome⟩ := List.mem_filterMap.mp hr
  split at hsome
  · cases hf : ps.find? (fun p => p.id = x.1) with
    | none => rw [hf] at hsome; simp at hsome
    | some q =>
      rw [hf] at hsome
      cases hsome
      have hq : q ∈ ps := List.mem_of_find?_eq_some hf
      have hqid : q.id = x.1 := by
        have := List.find?_some hf
        simpa using this
      have hxk : ¬ x.1 = paper.id := contentRelated_ne _ [] (by simp) x hx
      exact ⟨rfl, ⟨paper, hpaper, rfl⟩, ⟨q, hq, hqid⟩,
        fun hc => hxk (hc.symm)⟩
  · simp at hsome

/-- Shape of the relationships accumulated by the temporal inner loop. -/
theorem temporalStep_fold_shape {rand : Nat → ℚ} {p : Paper} {py : Int} :
    ∀ (others : List Paper) (st : List PaperRelationship × Nat)
      (r : PaperRelationship),
    r ∈ (others.foldl (temporalStep rand p py) st).1 → r ∈ st.1 ∨
      (r.relationshipType = RelType.temporal ∧ r.sourceId = p.id ∧
       r.strength = mkRat 3 10 ∧ ∃ q ∈ others, q.id = r.targetId) := by
  intro others
  induction others with
  | nil => intro st r hr; exact Or.inl hr
  | cons o os ih =>
    intro st r hr
    rw [List.foldl_cons] at hr
    rcases ih _ r hr with h | h
    · simp only [temporalStep] at h
      by_cases hrand : rand st.2 > mkRat 7 10
      · rw [if_pos hrand] at h
        rcases List.mem_append.mp h with h1 | h1
        · exact Or.inl h1
        · rw [List.mem_singleton.mp h1]
          exact Or.inr ⟨rfl, rfl, rfl, ⟨o, List.mem_cons_self o os, rfl⟩⟩
      · rw [if_neg hrand] at h
        exact Or.inl h
    · obtain ⟨ht, hs, hst, ⟨q, hq, hqt⟩⟩ := h
      exact Or.inr ⟨ht, hs, hst, ⟨q, List.mem_cons_of_mem o hq, hqt⟩⟩

/-- Shape of a temporal edge: temporal type and both endpoints among the
iterated papers. -/
theorem findTemporal_shape {ps : List Paper} {rand : Nat → ℚ} {k : Nat}
    {r : PaperRelationship}
    (hr : r ∈ (findTemporalRelationships ps rand k).1) :
    r.relationshipType = RelType.temporal ∧
    (∃ p ∈ ps, p.id = r.sourceId) ∧
    (∃ q ∈ ps, q.id = r.targetId) := by
  induction ps generalizing k with
  | nil => simp [findTemporalRelationships] at hr
  | cons p rest ih =>
    cases hy : yearTruthy p with
    | none =>
      simp only [findTemporalRelationships, hy] at hr
      obtain ⟨ht, ⟨q, hq, hqs⟩, ⟨q', hq', hqt⟩⟩ := ih hr
      exact ⟨ht, ⟨q, List.mem_cons_of_mem p hq, hqs⟩,
        ⟨q', List.mem_cons_of_mem p hq', hqt⟩⟩
    | some py =>
      cases rest with
      | nil =>
        simp [findTemporalRelationships, hy] at hr
      | cons q0 rest' =>
        simp only [findTemporalRelationships, hy] at hr
        rcases List.mem_append.mp hr with h | h
        · rcases temporalStep_fold_shape _ _ r
            (by simpa [temporalEmit] using h) with h1 | h1
          · simp at h1
          · obtain ⟨ht, hs, _, ⟨o, ho, hot⟩⟩ := h1
            have ho2 : o ∈ q0 :: rest' :=
              (List.mem_filter.mp (List.mem_of_mem_take ho)).1
            exact ⟨ht, ⟨p, List.mem_cons_self p _, hs.symm⟩,
              ⟨o, List.mem_cons_of_mem p ho2, hot⟩⟩
        · obtain ⟨ht, ⟨q, hq, hqs⟩, ⟨q', hq', hqt⟩⟩ := ih h
          exact ⟨ht, ⟨q, List.mem_cons_of_mem p hq, hqs⟩,
            ⟨q', List.mem_cons_of_mem p hq', hqt⟩⟩

/-- When the iterated papers have pairwise-distinct ids, temporal edges
never loop: the inner loop only pairs a paper with *later* papers. -/
theorem findTemporal_ne {ps : List Paper} {rand : Nat → ℚ} {k : Nat}
    {r : PaperRelationship} (hnd : (ps.map Paper.id).Nodup)
    (hr : r ∈ (findTemporalRelationships ps rand k).1) :
    r.sourceId ≠ r.targetId := by
  induction ps generalizing k with
  | nil => simp [findTemporalRelationships] at hr
  | cons p rest ih =>
    simp only [List.map_cons, List.nodup_cons] at hnd
    cases hy : yearTruthy p with
    | none =>
      simp only [findTemporalRelationships, hy] at hr
      exact ih hnd.2 hr
    | some py =>
      cases rest with
      | nil =>
        simp [findTemporalRelationships, hy] at hr
      | cons q0 rest' =>
        simp only [findTemporalRelationships, hy] at hr
        rcases List.mem_append.mp hr with h | h
        · rcases temporalStep_fold_shape _ _ r
            (by simpa [temporalEmit] using h) with h1 | h1
          · simp at h1
          · obtain ⟨_, hs, _, ⟨o, ho, hot⟩⟩ := h1
            have ho2 : o ∈ q0 :: rest' :=
              (List.mem_filter.mp (List.mem_of_mem_take ho)).1
            rw [hs, ← hot]
            intro hc
            exact hnd.1 (hc ▸ List.mem_map_of_mem Paper.id ho2)
        · exact ih hnd.2 h

/-- Shape of a citation edge: citation type, strength 0.9, both endpoint
ids present among the iterated papers, and the edge is grounded either in
the source's `references` list or in the target's `citations` list. -/
theorem citation_shape {ps : List Paper} {r : PaperRelationship}
    (hr : r ∈ findCitationRelationships ps) :
    r.relationshipType = RelType.citation ∧ r.strength = mkRat 9 10 ∧
    (∃ p ∈ ps, p.id = r.sourceId) ∧ (∃ p ∈ ps, p.id = r.targetId) ∧
    ((∃ p ∈ ps, p.id = r.sourceId ∧ r.targetId ∈ p.references.getD []) ∨
     (∃ p ∈ ps, p.id = r.targetId ∧ r.sourceId ∈ p.citations.getD [])) := by
  simp only [findCitationRelationships] at hr
  obtain ⟨paper, hpaper, hr⟩ := List.mem_flatMap.mp hr
  rcases List.mem_append.mp hr with h | h
  · obtain ⟨refId, href, hsome⟩ := List.mem_filterMap.mp h
    split at hsome
    · cases hsome
      obtain ⟨q, hq, hqid⟩ := List.any_eq_true.mp (by assumption)
      exact ⟨rfl, rfl, ⟨paper, hpaper, rfl⟩,
        ⟨q, hq, by simpa using hqid⟩,
        Or.inl ⟨paper, hpaper, rfl, href⟩⟩
    · simp at hsome
  · obtain ⟨citId, hcit, hsome⟩ := List.mem_filterMap.mp h
    split at hsome
    · cases hsome
      obtain ⟨q, hq, hqid⟩ := List.any_eq_true.mp (by assumption)
      exact ⟨rfl, rfl, ⟨q, hq, by simpa using hqid⟩,
        ⟨paper, hpaper, rfl⟩,
        Or.inr ⟨paper, hpaper, rfl, hcit⟩⟩
    · simp at hsome

/-- Production of citation edges from `references`: a sampled paper whose
references contain a sampled id yields the corresponding edge. -/
theorem citation_produced_ref {ps : List Paper} {p : Paper} {y : String}
    (hp : p ∈ ps) (hy : y ∈ p.references.getD [])
    (hid : ∃ q ∈ ps, q.id = y) :
    ∃ r ∈ findCitationRelationships ps,
      r.sourceId = p.id ∧ r.targetId = y ∧
      r.relationshipType = RelType.citation ∧ r.strength = mkRat 9 10 := by
  have hany : ps.any (fun q => q.id = y) = true := by
    obtain ⟨q, hq, hqy⟩ := hid
    exact List.any_eq_true.mpr ⟨q, hq, by simpa using hqy⟩
  refine ⟨{ sourceId := p.id, targetId := y,
            relationshipType := RelType.citation, strength := mkRat 9 10,
            metadata := some { citationCount := p.citationCount } },
    ?_, rfl, rfl, rfl, rfl⟩
  simp only [findCitationRelationships]
  refine List.mem_flatMap.mpr ⟨p, hp, List.mem_append.mpr (Or.inl ?_)⟩
  refine List.mem_filterMap.mpr ⟨y, hy, ?_⟩
  rw [if_pos hany]

/-- Production of citation edges from `citations`: a sampled paper whose
citations contain a sampled id yields the corresponding reversed edge. -/
theorem citation_produced_cit {ps : List Paper} {p : Paper} {x : String}
    (hp : p ∈ ps) (hx : x ∈ p.citations.getD [])
    (hid : ∃ q ∈ ps, q.id = x) :
    ∃ r ∈ findCitationRelationships ps,
      r.sourceId = x ∧ r.targetId = p.id ∧
      r.relationshipType = RelType.citation ∧ r.strength = mkRat 9 10 := by
  have hany : ps.any (fun q => q.id = x) = true := by
    obtain ⟨q, hq, hqx⟩ := hid
    exact List.any_eq_true.mpr ⟨q, hq, by simpa using hqx⟩
  refine ⟨{ sourceId := x, targetId := p.id,
            relationshipType := RelType.citation, strength := mkRat 9 10,
            metadata := some { citationCount := p.citationCount } },
    ?_, rfl, rfl, rfl, rfl⟩
  simp only [findCitationRelationships]
  refine List.mem_flatMap.mpr ⟨p, hp, List.mem_append.mpr (Or.inr ?_)⟩
  refine List.mem_filterMap.mpr ⟨x, hx, ?_⟩
  rw [if_pos hany]

/-- A merged candidate comes from one of the five detectors, each run on
the sampled subset, with the indexes built over the full list. -/
theorem mergedCandidates_cases {papers : List Paper} {rand : Nat → ℚ}
    {k : Nat} {r : PaperRelationship}
    (hr : r ∈ (mergedCandidates papers rand k).1) :
    r ∈ findAuthorRelationships (sampledOf papers)
        (buildAuthorIndex papers) ∨
    r ∈ (findVenueRelationships (sampledOf papers)
        (buildVenueIndex papers) rand k).1 ∨
    r ∈ findContentRelationships (sampledOf papers)
        (buildKeywordIndex papers) ∨
    r ∈ (findTemporalRelationships (sampledOf papers) rand
        (findVenueRelationships (sampledOf papers)
          (buildVenueIndex papers) rand k).2).1 ∨
    r ∈ findCitationRelationships (sampledOf papers) := by
  simpa [mergedCandidates, List.mem_append, or_assoc] using hr

/-- Every merged candidate has its source id in the sampled subset and its
target id somewhere in the full input list. -/
theorem mergedCandidates_endpoints {papers : List Paper} {rand : Nat → ℚ}
    {k : Nat} {r : PaperRelationship}
    (hr : r ∈ (mergedCandidates papers rand k).1) :
    (∃ p ∈ sampledOf papers, p.id = r.sourceId) ∧
    (∃ p ∈ papers, p.id = r.targetId) := by
  rcases mergedCandidates_cases hr with h | h | h | h | h
  · obtain ⟨_, hsrc, ⟨e, he, q, hq, hqt⟩, _⟩ := author_shape h
    exact ⟨hsrc, ⟨q, buildAuthorIndex_values papers e he q hq, hqt⟩⟩
  · obtain ⟨_, hsrc, ⟨e, he, q, hq, hqt⟩, _⟩ := findVenue_shape h
    exact ⟨hsrc, ⟨q, buildVenueIndex_values papers e he q hq, hqt⟩⟩
  · obtain ⟨_, hsrc, ⟨q, hq, hqt⟩, _⟩ := content_shape h
    exact ⟨hsrc, ⟨q, sampledOf_subset hq, hqt⟩⟩
  · obtain ⟨_, hsrc, ⟨q, hq, hqt⟩⟩ := findTemporal_shape h
    exact ⟨hsrc, ⟨q, sampledOf_subset hq, hqt⟩⟩
  · obtain ⟨_, _, hsrc, ⟨q, hq, hqt⟩, _⟩ := citation_shape h
    exact ⟨hsrc, ⟨q, sampledOf_subset hq, hqt⟩⟩

/-! ## Claim C3 — which papers the indexes cover -/

set_option maxRecDepth 100000 in
/-- Claim C3 (counterexample): with 224 papers (one above the sampler
cap), the sampler drops `p223`, yet the author index — built over the
*full* list before sampling — still links `p0` to `p223`, so the returned
relationship has a target id outside the sampled subset. -/
theorem detector_endpoints_sampled_counterexample :
    ¬ (∀ (papers : List Paper) (rand : Nat → ℚ) (k : Nat)
        (r : PaperRelationship),
        r ∈ (analyzeRelationships papers rand k).1 →
        (∃ p ∈ sampledOf papers, p.id = r.sourceId) ∧
        (∃ p ∈ sampledOf papers, p.id = r.targetId)) := by
  intro h
  have hmap : (analyzeRelationships c3Papers (fun _ => 0) 0).1.map
      (fun r => (r.sourceId, r.targetId)) = [("p0", "p223")] := by decide
  have hx : (("p0", "p223") : String × String) ∈
      (analyzeRelationships c3Papers (fun _ => 0) 0).1.map
        (fun r => (r.sourceId, r.targetId)) := by
    rw [hmap]; exact List.mem_singleton_self _
  obtain ⟨r, hrmem, hrp⟩ := List.mem_map.mp hx
  obtain ⟨p, hp, hpid⟩ := (h c3Papers (fun _ => 0) 0 r hrmem).2
  have htarget : r.targetId = "p223" := congrArg Prod.snd hrp
  have : ("p223" : String) ∈ (sampledOf c3Papers).map Paper.id := by
    rw [← htarget, ← hpid]
    exact List.mem_map_of_mem Paper.id hp
  exact absurd this (by decide)

/-- Claim C3 (amended): the three indexes are built over the full input
list before sampling; every relationship returned by
`analyzeRelationships` has its source id among the sampled papers, but its
target id is only guaranteed to be among the full input list (author and
venue targets can fall outside the sample). -/
theorem analyzeRelationships_endpoints (papers : List Paper)
    (rand : Nat → ℚ) (k : Nat) (r : PaperRelationship)
    (hr : r ∈ (analyzeRelationships papers rand k).1) :
    (∃ p ∈ sampledOf papers, p.id = r.sourceId) ∧
    (∃ p ∈ papers, p.id = r.targetId) :=
  mergedCandidates_endpoints (mem_of_mem_analyze hr)

/-- Witness for `analyzeRelationships_endpoints` at the two-paper citation
corpus. -/
theorem analyzeRelationships_endpoints_witness :
    (∃ p ∈ sampledOf citePairPapers, p.id = citePairRel.sourceId) ∧
    (∃ p ∈ citePairPapers, p.id = citePairRel.targetId) :=
  analyzeRelationships_endpoints citePairPapers (fun _ => 0) 0 citePairRel
    (by rw [show (analyzeRelationships citePairPapers (fun _ => 0) 0).1 =
      [citePairRel] from rfl]; exact List.mem_singleton_self _)

/-- Extract the unique relationship behind a singleton projection of
`(sourceId, targetId, relationshipType)` (the projection avoids forcing
the rational `strength` field, which does not reduce definitionally). -/
theorem exists_of_proj {l : List PaperRelationship} {s t : String}
    {ty : RelType}
    (h : l.map (fun r => (r.sourceId, r.targetId, r.relationshipType)) =
      [(s, t, ty)]) :
    ∃ r ∈ l, r.sourceId = s ∧ r.targetId = t ∧ r.relationshipType = ty := by
  have hx : ((s, t, ty) : String × String × RelType) ∈
      l.map (fun r => (r.sourceId, r.targetId, r.relationshipType)) := by
    rw [h]; exact List.mem_singleton_self _
  obtain ⟨r, hr, hrp⟩ := List.mem_map.mp hx
  simp only [Prod.mk.injEq] at hrp
  exact ⟨r, hr, hrp.1, hrp.2.1, hrp.2.2⟩

/-! ## Claim C10 — self-pairs -/

/-- Claim C10 (counterexample): with two distinct papers sharing the id
`"a"` and the same year, the temporal detector — which skips only the same
*position*, not the same *id* — returns a temporal relationship whose
source and target ids coincide, so it is not true that every
author/venue/content/temporal relationship has distinct endpoint ids. -/
theorem self_pairs_counterexample :
    ¬ (∀ (papers : List Paper) (rand : Nat → ℚ) (k : Nat)
        (r : PaperRelationship),
        r ∈ (analyzeRelationships papers rand k).1 →
        (r.relationshipType = RelType.author ∨
         r.relationshipType = RelType.venue ∨
         r.relationshipType = RelType.content ∨
         r.relationshipType = RelType.temporal) →
        r.sourceId ≠ r.targetId) := by
  intro h
  obtain ⟨r, hr, hs, ht, hty⟩ := exists_of_proj
    (by decide : (analyzeRelationships dupIdPapers (fun _ => 1) 0).1.map
      (fun r => (r.sourceId, r.targetId, r.relationshipType)) =
      [("a", "a", RelType.temporal)])
  exact h dupIdPapers (fun _ => 1) 0 r hr
    (Or.inr (Or.inr (Or.inr hty))) (by rw [hs, ht])

/-- Claim C10 (amended): author, venue and content edges always have
distinct endpoint ids (those detectors compare ids); temporal edges have
distinct endpoint ids whenever the sampled papers have pairwise-distinct
ids (the detector skips only the same position); and both a citation
self-edge (a paper referencing its own id) and a temporal self-edge
(duplicate ids) are actually returned on concrete inputs. -/
theorem self_pairs_policy :
    (∀ (papers : List Paper) (rand : Nat → ℚ) (k : Nat)
      (r : PaperRelationship),
      r ∈ (analyzeRelationships papers rand k).1 →
      (r.relationshipType = RelType.author ∨
       r.relationshipType = RelType.venue ∨
       r.relationshipType = RelType.content) →
      r.sourceId ≠ r.targetId) ∧
    (∀ (papers : List Paper) (rand : Nat → ℚ) (k : Nat)
      (r : PaperRelationship),
      ((sampledOf papers).map Paper.id).Nodup →
      r ∈ (analyzeRelationships papers rand k).1 →
      r.relationshipType = RelType.temporal →
      r.sourceId ≠ r.targetId) ∧
    (∃ r ∈ (analyzeRelationships selfCitePapers (fun _ => 0) 0).1,
      r.relationshipType = RelType.citation ∧ r.sourceId = r.targetId) ∧
    (∃ r ∈ (analyzeRelationships dupIdPapers (fun _ => 1) 0).1,
      r.relationshipType = RelType.temporal ∧ r.sourceId = r.targetId) := by
  refine ⟨?_, ?_, ?_, ?_⟩
  · intro papers rand k r hr hty
    rcases mergedCandidates_cases (mem_of_mem_analyze hr) with
      h | h | h | h | h
    · exact (author_shape h).2.2.2
    · exact (findVenue_shape h).2.2.2
    · exact (content_shape h).2.2.2
    · have hT := (findTemporal_shape h).1
      rcases hty with h1 | h1 | h1 <;>
        exact absurd (hT.symm.trans h1) (by decide)
    · have hC := (citation_shape h).1
      rcases hty with h1 | h1 | h1 <;>
        exact absurd (hC.symm.trans h1) (by decide)
  · intro papers rand k r hnd hr hty
    rcases mergedCandidates_cases (mem_of_mem_analyze hr) with
      h | h | h | h | h
    · exact absurd ((author_shape h).1.symm.trans hty) (by decide)
    · exact absurd ((findVenue_shape h).1.symm.trans hty) (by decide)
    · exact absurd ((content_shape h).1.symm.trans hty) (by decide)
    · exact findTemporal_ne hnd h
    · exact absurd ((citation_shape h).1.symm.trans hty) (by decide)
  · obtain ⟨r, hr, hs, ht, hty⟩ := exists_of_proj
      (by decide : (analyzeRelationships selfCitePapers (fun _ => 0) 0).1.map
        (fun r => (r.sourceId, r.targetId, r.relationshipType)) =
        [("s", "s", RelType.citation)])
    exact ⟨r, hr, hty, by rw [hs, ht]⟩
  · obtain ⟨r, hr, hs, ht, hty⟩ := exists_of_proj
      (by decide : (analyzeRelationships dupIdPapers (fun _ => 1) 0).1.map
        (fun r => (r.sourceId, r.targetId, r.relationshipType)) =
        [("a", "a", RelType.temporal)])
    exact ⟨r, hr, hty, by rw [hs, ht]⟩

/-- Witness for `self_pairs_policy`: two contemporary papers with distinct
ids yield a temporal edge with distinct endpoints. -/
theorem self_pairs_policy_witness :
    ∃ r ∈ (analyzeRelationships twoYearPapers (fun _ => 1) 0).1,
      r.sourceId ≠ r.targetId := by
  obtain ⟨r, hr, _, _, hty⟩ := exists_of_proj
    (by decide : (analyzeRelationships twoYearPapers (fun _ => 1) 0).1.map
      (fun r => (r.sourceId, r.targetId, r.relationshipType)) =
      [("a", "b", RelType.temporal)])
  exact ⟨r, hr,
    self_pairs_policy.2.1 twoYearPapers (fun _ => 1) 0 r (by decide) hr hty⟩

/-! Lemmas about the dedup keys and `dedupGo`. -/

theorem sameKey_symm {a b : PaperRelationship} (h : sameKey a b) :
    sameKey b a := by
  obtain ⟨ht, h1 | h2⟩ := h
  · exact ⟨ht.symm, Or.inl ⟨h1.1.symm, h1.2.symm⟩⟩
  · exact ⟨ht.symm, Or.inr ⟨h2.2.symm, h2.1.symm⟩⟩

theorem dedupGo_keys_not_seen :
    ∀ (l : List PaperRelationship) (seen : List String)
      (r : PaperRelationship), r ∈ dedupGo l seen →
    key1 r ∉ seen ∧ key2 r ∉ seen := by
  intro l
  induction l with
  | nil => intro seen r hr; simp [dedupGo] at hr
  | cons x xs ih =>
    intro seen r hr
    simp only [dedupGo] at hr
    split at hr
    · exact ih seen r hr
    · rename_i hcond
      push_neg at hcond
      rcases List.mem_cons.mp hr with h | h
      · exact h ▸ hcond
      · have := ih _ r h
        exact ⟨fun hc => this.1 (List.mem_cons_of_mem _ hc),
          fun hc => this.2 (List.mem_cons_of_mem _ hc)⟩

theorem dedupGo_pairwise :
    ∀ (l : List PaperRelationship) (seen : List String),
    List.Pairwise (fun a b => key1 b ≠ key1 a ∧ key2 b ≠ key1 a)
      (dedupGo l seen) := by
  intro l
  induction l with
  | nil => intro seen; simp [dedupGo]
  | cons x xs ih =>
    intro seen
    simp only [dedupGo]
    split
    · exact ih seen
    · refine List.Pairwise.cons ?_ (ih _)
      intro b hb
      have hkeys := dedupGo_keys_not_seen _ _ b hb
      exact ⟨fun hc => hkeys.1 (hc ▸ List.mem_cons_self _ _),
        fun hc => hkeys.2 (hc ▸ List.mem_cons_self _ _)⟩

/-- Colliding spec keys imply colliding string keys (composition
direction: needs no parsing). -/
theorem sameKey_to_string_keys {a b : PaperRelationship}
    (h : sameKey a b) : key1 b = key1 a ∨ key2 b = key1 a := by
  obtain ⟨ht, h1 | h2⟩ := h
  · left
    simp only [key1]
    rw [h1.1, h1.2, ht]
  · right
    simp only [key1, key2]
    rw [← h2.1, ← h2.2, ht]

/-- No two relationships in the final output share both the unordered id
pair and the type (part 1 of the dedup contract, unconditional). -/
theorem dedup_pairwise_distinct (papers : List Paper) (rand : Nat → ℚ)
    (k : Nat) :
    List.Pairwise (fun a b => ¬ sameKey a b)
      (analyzeRelationships papers rand k).1 := by
  have hd : List.Pairwise (fun a b => ¬ sameKey a b)
      (deduplicateRelationships (mergedCandidates papers rand k).1) := by
    refine (dedupGo_pairwise _ []).imp ?_
    intro a b hR hsame
    rcases sameKey_to_string_keys hsame with hc | hc
    · exact hR.1 hc
    · exact hR.2 hc
  have hsymm : Symmetric (fun a b : PaperRelationship => ¬ sameKey a b) :=
    fun a b hab hba => hab (sameKey_symm hba)
  have hrank : List.Pairwise (fun a b => ¬ sameKey a b)
      (rankRelationships (deduplicateRelationships
        (mergedCandidates papers rand k).1)) :=
    ((sortByJs_perm _ _).pairwise_iff
      (fun h' hs => h' (sameKey_symm hs))).mpr hd
  simp only [analyzeRelationships]
  exact hrank.sublist (List.take_sublist _ _)

/-! String-key parsing, for the converse direction under `-`-free ids. -/

theorem sepSplit_inj :
    ∀ (a a' r r' : List Char), ('-' : Char) ∉ a → ('-' : Char) ∉ a' →
    a ++ '-' :: r = a' ++ '-' :: r' → a = a' ∧ r = r' := by
  intro a
  induction a with
  | nil =>
    intro a' r r' _ ha' h
    cases a' with
    | nil => simpa using h
    | cons c cs =>
      exfalso
      simp only [List.nil_append, List.cons_append, List.cons.injEq] at h
      exact ha' (h.1 ▸ List.mem_cons_self c cs)
  | cons c cs ih =>
    intro a' r r' ha ha' h
    cases a' with
    | nil =>
      exfalso
      simp only [List.nil_append, List.cons_append, List.cons.injEq] at h
      exact ha (h.1 ▸ List.mem_cons_self c cs)
    | cons c' cs' =>
      simp only [List.cons_append, List.cons.injEq] at h
      obtain ⟨h1, h2⟩ := ih cs' r r'
        (fun hc => ha (List.mem_cons_of_mem c hc))
        (fun hc => ha' (List.mem_cons_of_mem c' hc)) h.2
      exact ⟨by rw [h.1, h1], h2⟩

theorem keyParts_inj {s t u s' t' u' : String}
    (hs : hyphenFree s) (ht : hyphenFree t) (hu : hyphenFree u)
    (hs' : hyphenFree s') (ht' : hyphenFree t') (hu' : hyphenFree u')
    (h : s ++ "-" ++ t ++ "-" ++ u = s' ++ "-" ++ t' ++ "-" ++ u') :
    s = s' ∧ t = t' ∧ u = u' := by
  have hd := congrArg String.data h
  simp only [String.data_append, List.append_assoc,
    List.singleton_append] at hd
  obtain ⟨h1, h2⟩ := sepSplit_inj s.data s'.data _ _ hs hs' hd
  obtain ⟨h3, h4⟩ := sepSplit_inj t.data t'.data _ _ ht ht' h2
  refine ⟨?_, ?_, ?_⟩
  · cases s; cases s'; exact congrArg String.mk h1
  · cases t; cases t'; exact congrArg String.mk h3
  · cases u; cases u'; exact congrArg String.mk h4

theorem typeStr_no_dash : ∀ ty : RelType, hyphenFree (typeStr ty) := by
  intro ty
  unfold hyphenFree
  cases ty <;> decide

theorem typeStr_inj : ∀ a b : RelType, typeStr a = typeStr b → a = b := by
  intro a b
  cases a <;> cases b <;> decide

/-- Under `-`-free endpoint ids, a string-key collision implies a
semantic key collision. -/
theorem collide_of_string_keys {a b : PaperRelationship}
    (has : hyphenFree a.sourceId) (hat : hyphenFree a.targetId)
    (hbs : hyphenFree b.sourceId) (hbt : hyphenFree b.targetId) :
    (key1 a = key1 b → sameKey a b) ∧ (key1 a = key2 b → sameKey a b) := by
  constructor
  · intro h
    obtain ⟨h1, h2, h3⟩ := keyParts_inj has hat (typeStr_no_dash _)
      hbs hbt (typeStr_no_dash _) h
    exact ⟨typeStr_inj _ _ h3, Or.inl ⟨h1, h2⟩⟩
  · intro h
    obtain ⟨h1, h2, h3⟩ := keyParts_inj has hat (typeStr_no_dash _)
      hbt hbs (typeStr_no_dash _) h
    exact ⟨typeStr_inj _ _ h3, Or.inr ⟨h1, h2⟩⟩

/-- The first element of its key class survives `dedupGo`, provided the
`seen` set and the earlier elements avoid both of its string keys. -/
theorem dedupGo_keeps :
    ∀ (l : List PaperRelationship) (seen : List String) (i : Nat)
      (hi : i < l.length),
    (∀ s ∈ seen, s ≠ key1 (l.get ⟨i, hi⟩) ∧ s ≠ key2 (l.get ⟨i, hi⟩)) →
    (∀ (j : Nat) (hj : j < l.length), j < i →
      key1 (l.get ⟨j, hj⟩) ≠ key1 (l.get ⟨i, hi⟩) ∧
      key1 (l.get ⟨j, hj⟩) ≠ key2 (l.get ⟨i, hi⟩)) →
    l.get ⟨i, hi⟩ ∈ dedupGo l seen := by
  intro l
  induction l with
  | nil => intro seen i hi; simp at hi
  | cons x xs ih =>
    intro seen i hi hseen hearlier
    cases i with
    | zero =>
      simp only [dedupGo, List.get]
      rw [if_neg]
      · exact List.mem_cons_self _ _
      · rintro (hc | hc)
        · exact (hseen _ hc).1 rfl
        · exact (hseen _ hc).2 rfl
    | succ i' =>
      have hi' : i' < xs.length := Nat.lt_of_succ_lt_succ hi
      simp only [dedupGo, List.get]
      split
      · exact ih seen i' hi'
          (fun s hs => hseen s hs)
          (fun j hj hji => hearlier (j + 1) (Nat.succ_lt_succ hj)
            (Nat.succ_lt_succ hji))
      · refine List.mem_cons_of_mem x (ih _ i' hi' ?_ ?_)
        · intro s hs
          rcases List.mem_cons.mp hs with h | h
          · subst h
            exact hearlier 0 (Nat.succ_pos _) (Nat.succ_pos _)
          · exact hseen s h
        · intro j hj hji
          exact hearlier (j + 1) (Nat.succ_lt_succ hj)
            (Nat.succ_lt_succ hji)

/-! ## Claim C5 — deduplication -/

/-- Claim C5 (counterexample): paper ids containing the key separator `-`
make two different unordered pairs collide as strings
(`"a-b"/"c"` and `"a"/"b-c"` both key to `"a-b-c-citation"`), so the
first-seen candidate of the key `("a","b-c",citation)` — which collides
with no *earlier same-key* candidate — is nevertheless dropped by
deduplication. -/
theorem dedup_first_seen_counterexample :
    ¬ ((∀ (papers : List Paper) (rand : Nat → ℚ) (k : Nat),
        List.Pairwise (fun a b => ¬ sameKey a b)
          (analyzeRelationships papers rand k).1) ∧
       (∀ (papers : List Paper) (rand : Nat → ℚ) (k : Nat)
         (i : Nat) (hi : i < (mergedCandidates papers rand k).1.length),
         (∀ (j : Nat) (hj : j < (mergedCandidates papers rand k).1.length),
           j < i →
           ¬ sameKey ((mergedCandidates papers rand k).1.get ⟨j, hj⟩)
             ((mergedCandidates papers rand k).1.get ⟨i, hi⟩)) →
         (mergedCandidates papers rand k).1.get ⟨i, hi⟩ ∈
           deduplicateRelationships (mergedCandidates papers rand k).1)) := by
  rintro ⟨-, h⟩
  have hlen : 1 < (mergedCandidates hyphenPapers (fun _ => 0) 0).1.length := by
    decide
  have hkept := h hyphenPapers (fun _ => 0) 0 1 hlen ?earlier
  case earlier =>
    intro j hj hj1
    have hj0 : j = 0 := by omega
    subst hj0
    exact (by decide :
      ¬ sameKey ((mergedCandidates hyphenPapers (fun _ => 0) 0).1.get
          ⟨0, by decide⟩)
        ((mergedCandidates hyphenPapers (fun _ => 0) 0).1.get
          ⟨1, by decide⟩))
  have hmem := List.mem_map_of_mem
    (fun r => (r.sourceId, r.targetId, r.relationshipType)) hkept
  have hproj : (deduplicateRelationships
      (mergedCandidates hyphenPapers (fun _ => 0) 0).1).map
      (fun r => (r.sourceId, r.targetId, r.relationshipType)) =
      [("a-b", "c", RelType.citation)] := by decide
  rw [hproj, List.mem_singleton] at hmem
  exact absurd hmem (by decide :
    ¬ (fun r => (r.sourceId, r.targetId, r.relationshipType))
        ((mergedCandidates hyphenPapers (fun _ => 0) 0).1.get
          ⟨1, by decide⟩) = ("a-b", "c", RelType.citation))

/-- Claim C5 (amended): no two returned relationships share the unordered
pair and the type (unconditionally); and, provided no paper id contains
the separator character `-`, the first-seen candidate of each
(unordered pair, type) key survives deduplication.  (With `-` in ids,
distinct keys can collide as strings and drop the first-seen edge of a
key, as the counterexample shows.) -/
theorem dedup_policy :
    (∀ (papers : List Paper) (rand : Nat → ℚ) (k : Nat),
      List.Pairwise (fun a b => ¬ sameKey a b)
        (analyzeRelationships papers rand k).1) ∧
    (∀ (papers : List Paper) (rand : Nat → ℚ) (k : Nat),
      (∀ p ∈ papers, hyphenFree p.id) →
      ∀ (i : Nat) (hi : i < (mergedCandidates papers rand k).1.length),
      (∀ (j : Nat) (hj : j < (mergedCandidates papers rand k).1.length),
        j < i →
        ¬ sameKey ((mergedCandidates papers rand k).1.get ⟨j, hj⟩)
          ((mergedCandidates papers rand k).1.get ⟨i, hi⟩)) →
      (mergedCandidates papers rand k).1.get ⟨i, hi⟩ ∈
        deduplicateRelationships (mergedCandidates papers rand k).1) := by
  refine ⟨dedup_pairwise_distinct, ?_⟩
  intro papers rand k hfree i hi hno
  apply dedupGo_keeps _ [] i hi (by simp)
  intro j hj hji
  obtain ⟨⟨pi, hpi, hpis⟩, ⟨qi, hqi, hqit⟩⟩ :=
    mergedCandidates_endpoints (List.get_mem _ _ hi)
  obtain ⟨⟨pj, hpj, hpjs⟩, ⟨qj, hqj, hqjt⟩⟩ :=
    mergedCandidates_endpoints (List.get_mem _ _ hj)
  have hsi : hyphenFree ((mergedCandidates papers rand k).1.get
      ⟨i, hi⟩).sourceId := hpis ▸ hfree pi (sampledOf_subset hpi)
  have hti : hyphenFree ((mergedCandidates papers rand k).1.get
      ⟨i, hi⟩).targetId := hqit ▸ hfree qi hqi
  have hsj : hyphenFree ((mergedCandidates papers rand k).1.get
      ⟨j, hj⟩).sourceId := hpjs ▸ hfree pj (sampledOf_subset hpj)
  have htj : hyphenFree ((mergedCandidates papers rand k).1.get
      ⟨j, hj⟩).targetId := hqjt ▸ hfree qj hqj
  have hcoll := collide_of_string_keys hsj htj hsi hti
  exact ⟨fun hc => hno j hj hji (hcoll.1 hc),
    fun hc => hno j hj hji (hcoll.2 hc)⟩

/-- Witness for `dedup_policy`: in the two-paper citation corpus, the
first (and only) candidate survives deduplication. -/
theorem dedup_policy_witness :
    (mergedCandidates citePairPapers (fun _ => 0) 0).1.get
      ⟨0, by decide⟩ ∈
      deduplicateRelationships
        (mergedCandidates citePairPapers (fun _ => 0) 0).1 := by
  apply dedup_policy.2 citePairPapers (fun _ => 0) 0 (by decide) 0
    (by decide)
  intro j hj hj0
  exact absurd hj0 (Nat.not_lt_zero j)

theorem mkRat_nine_ten : (mkRat 9 10 : ℚ) = 9/10 := by
  rw [Rat.mkRat_eq_div]
  norm_num

/-! ## Claim C6 — citation edges -/

/-- Claim C6 (counterexample): paper `x` lists `y` in its `citations`
list, so the detector emits the edge `y → x`; its *source* paper (`y`) has
neither references nor citations, refuting "a citation edge is produced
exactly when the target id appears in the source paper's
references-or-citations list". -/
theorem citation_direction_counterexample :
    ¬ (∀ (papers : List Paper) (r : PaperRelationship),
        r ∈ findCitationRelationships (sampledOf papers) →
        ∃ p ∈ sampledOf papers, p.id = r.sourceId ∧
          (r.targetId ∈ p.references.getD [] ∨
           r.targetId ∈ p.citations.getD [])) := by
  intro h
  obtain ⟨r, hr, hs, ht, _⟩ := exists_of_proj
    (by decide : (findCitationRelationships
      (sampledOf crossCitePapers)).map
      (fun r => (r.sourceId, r.targetId, r.relationshipType)) =
      [("y", "x", RelType.citation)])
  obtain ⟨p, hp, hpid, hor⟩ := h crossCitePapers r hr
  have hsamp : sampledOf crossCitePapers = crossCitePapers := by decide
  rw [hsamp] at hp
  rw [hs] at hpid
  rw [ht] at hor
  rcases List.mem_cons.mp hp with rfl | hp2
  · exact absurd hpid (by decide)
  rcases List.mem_cons.mp hp2 with rfl | hp3
  · simp at hor
  · simp at hp3

/-- Claim C6 (amended): a citation edge `X → Y` is emitted exactly when
both ids belong to the sampled set and either `Y` appears in `X`'s
`references` list or `X` appears in `Y`'s `citations` list (the
`citations` branch emits the edge with the *named* paper as source); every
citation edge has strength 0.9; and the citation edges among the merged
candidates do not depend on the random stream at all. -/
theorem citation_policy :
    (∀ (ps : List Paper) (r : PaperRelationship),
      r ∈ findCitationRelationships ps →
      r.relationshipType = RelType.citation ∧ r.strength = 9/10 ∧
      (∃ p ∈ ps, p.id = r.sourceId) ∧ (∃ p ∈ ps, p.id = r.targetId) ∧
      ((∃ p ∈ ps, p.id = r.sourceId ∧ r.targetId ∈ p.references.getD []) ∨
       (∃ p ∈ ps, p.id = r.targetId ∧ r.sourceId ∈ p.citations.getD []))) ∧
    (∀ (ps : List Paper) (p : Paper) (y : String), p ∈ ps →
      y ∈ p.references.getD [] → (∃ q ∈ ps, q.id = y) →
      ∃ r ∈ findCitationRelationships ps,
        r.sourceId = p.id ∧ r.targetId = y ∧
        r.relationshipType = RelType.citation ∧ r.strength = 9/10) ∧
    (∀ (ps : List Paper) (p : Paper) (x : String), p ∈ ps →
      x ∈ p.citations.getD [] → (∃ q ∈ ps, q.id = x) →
      ∃ r ∈ findCitationRelationships ps,
        r.sourceId = x ∧ r.targetId = p.id ∧
        r.relationshipType = RelType.citation ∧ r.strength = 9/10) ∧
    (∀ (papers : List Paper) (rand : Nat → ℚ) (k : Nat),
      (mergedCandidates papers rand k).1.filter
        (fun r => r.relationshipType = RelType.citation) =
      findCitationRelationships (sampledOf papers)) := by
  refine ⟨?_, ?_, ?_, ?_⟩
  · intro ps r hr
    obtain ⟨h1, h2, h3, h4, h5⟩ := citation_shape hr
    exact ⟨h1, mkRat_nine_ten ▸ h2, h3, h4, h5⟩
  · intro ps p y hp hy hid
    obtain ⟨r, hr, h1, h2, h3, h4⟩ := citation_produced_ref hp hy hid
    exact ⟨r, hr, h1, h2, h3, mkRat_nine_ten ▸ h4⟩
  · intro ps p x hp hx hid
    obtain ⟨r, hr, h1, h2, h3, h4⟩ := citation_produced_cit hp hx hid
    exact ⟨r, hr, h1, h2, h3, mkRat_nine_ten ▸ h4⟩
  · intro papers rand k
    simp only [mergedCandidates]
    rw [List.filter_append, List.filter_append, List.filter_append,
      List.filter_append]
    rw [List.filter_eq_nil_iff.mpr (fun r hr => by
      simp [(author_shape hr).1])]
    rw [List.filter_eq_nil_iff.mpr (fun r hr => by
      simp [(findVenue_shape hr).1])]
    rw [List.filter_eq_nil_iff.mpr (fun r hr => by
      simp [(content_shape hr).1])]
    rw [List.filter_eq_nil_iff.mpr (fun r hr => by
      simp [(findTemporal_shape hr).1])]
    rw [List.filter_eq_self.mpr (fun r hr => by
      simp [(citation_shape hr).1])]
    simp

/-- Witness for `citation_policy`: the reference `x → y` in the two-paper
corpus produces exactly the expected edge. -/
theorem citation_policy_witness :
    ∃ r ∈ findCitationRelationships (sampledOf citePairPapers),
      r.sourceId = "x" ∧ r.targetId = "y" ∧
      r.relationshipType = RelType.citation ∧ r.strength = 9/10 := by
  have hsamp : sampledOf citePairPapers = citePairPapers := by decide
  obtain ⟨r, hr, h1, h2, h3, h4⟩ := citation_policy.2.1
    (sampledOf citePairPapers)
    { id := "x", title := "", authors := [], references := some ["y"] }
    "y" (by rw [hsamp]; exact List.mem_cons_self _ _) (by decide)
    ⟨{ id := "y", title := "", authors := [] },
      by rw [hsamp]; exact List.mem_cons_of_mem _ (List.mem_cons_self _ _),
      rfl⟩
  exact ⟨r, hr, h1, h2, h3, h4⟩

theorem find?_replace_of_any {α : Type} (l : CacheState α) (key : String)
    (item : CacheItem α) (h : l.any (fun e => e.1 = key) = true) :
    (l.map (fun e => if e.1 = key then (key, item) else e)).find?
      (fun e => e.1 = key) = some (key, item) := by
  induction l with
  | nil => simp at h
  | cons e tl ih =>
    by_cases he : e.1 = key
    · simp [List.find?_cons, he]
    · have h' : tl.any (fun e => e.1 = key) = true := by
        simpa [List.any_cons, he] using h
      simpa [List.find?_cons, he] using ih h'

theorem find?_append_fresh {α : Type} (l : CacheState α) (key : String)
    (item : CacheItem α) (h : l.any (fun e => e.1 = key) = false) :
    (l ++ [(key, item)]).find? (fun e => e.1 = key) = some (key, item) := by
  induction l with
  | nil => simp
  | cons e tl ih =>
    have he : ¬ e.1 = key := by
      intro hk
      simp [List.any_cons, hk] at h
    have h' : tl.any (fun e => e.1 = key) = false := by
      simpa [List.any_cons, he] using h
    simpa [List.find?_cons, he] using ih h'

/-- Looking up a key immediately after `set` finds exactly the entry just
stored, whatever cleanup did before the store. -/
theorem cacheLookup_set {α : Type} (st : CacheState α) (key : String)
    (d : α) (ttlM now : Nat) :
    cacheLookup (cacheSet st key d ttlM now) key =
      some { data := d, timestamp := now, ttl := ttlM * 60 * 1000 } := by
  simp only [cacheSet, cacheLookup]
  generalize (if st.length ≥ maxCacheSize then cacheCleanup st now else st) = l
  by_cases h : l.any (fun e => e.1 = key) = true
  · rw [if_pos h, find?_replace_of_any l key _ h]
    rfl
  · rw [if_neg h, find?_append_fresh l key _ (Bool.eq_false_iff.mpr h)]
    rfl

/-- A `get` within the stored TTL window returns the stored payload and
leaves the cache untouched. -/
theorem cacheGet_set_fresh {α : Type} (st : CacheState α) (key : String)
    (d : α) (now now' : Nat) (h : now' - now ≤ 3600000) :
    cacheGet (cacheSet st key d 60 now) key now' =
      (some d, cacheSet st key d 60 now) := by
  simp only [cacheGet, cacheLookup_set]
  rw [if_neg (by omega : ¬ now' - now > 60 * 60 * 1000)]

/-- The handler's cache-miss path, as one equation. -/
theorem buildKG_miss (papers : List Paper) (topic : Option String)
    (st : CacheState GraphResponse) (now : Nat) (rand : Nat → ℚ) (k : Nat)
    (hne : papers.isEmpty = false)
    (hmiss : (cacheGet st (graphCacheKey
      ((strTruthy topic).getD "research_graph_topic") papers) now).1 =
      none) :
    buildKnowledgeGraph papers topic st now rand k =
      (BuildResult.ok (freshGraphResponse papers
         ((strTruthy topic).getD "research_graph_topic") now rand k),
       cacheSet (cacheGet st (graphCacheKey
           ((strTruthy topic).getD "research_graph_topic") papers) now).2
         (graphCacheKey
           ((strTruthy topic).getD "research_graph_topic") papers)
         (freshGraphResponse papers
           ((strTruthy topic).getD "research_graph_topic") now rand k)
         60 now,
       true) := by
  simp only [buildKnowledgeGraph, hne, Bool.false_eq_true, if_false]
  rw [hmiss]

/-- The handler's cache-hit path, as one equation. -/
theorem buildKG_hit (papers : List Paper) (topic : Option String)
    (st : CacheState GraphResponse) (now : Nat) (rand : Nat → ℚ) (k : Nat)
    (resp : GraphResponse) (hne : papers.isEmpty = false)
    (hhit : (cacheGet st (graphCacheKey
      ((strTruthy topic).getD "research_graph_topic") papers) now).1 =
      some resp) :
    buildKnowledgeGraph papers topic st now rand k =
      (BuildResult.ok { resp with data := { resp.data with cached := true } },
       (cacheGet st (graphCacheKey
         ((strTruthy topic).getD "research_graph_topic") papers) now).2,
       false) := by
  simp only [buildKnowledgeGraph, hne, Bool.false_eq_true, if_false]
  rw [hhit]

/-! ## Claim C7 — idempotence of `buildGraph` under caching -/

/-- Claim C7: if a `buildGraph` call with `(papers, topic)` misses the
cache and completes, a second call with the identical arguments within the
60-minute TTL returns exactly the same response with only the `cached`
flag flipped to `true`, and skips the sampling/index/detector/ranking
work (the third component, which records whether the build ran, is
`false`). -/
theorem buildGraph_cached_idempotent (papers : List Paper)
    (topic : Option String) (st0 : CacheState GraphResponse)
    (now1 now2 : Nat) (rand1 rand2 : Nat → ℚ) (k1 k2 : Nat)
    (hne : papers ≠ [])
    (hmiss : (cacheGet st0 (graphCacheKey
      ((strTruthy topic).getD "research_graph_topic") papers) now1).1 =
      none)
    (httl : now2 - now1 ≤ 3600000) :
    ∃ resp,
      (buildKnowledgeGraph papers topic st0 now1 rand1 k1).1 =
        BuildResult.ok resp ∧
      resp.data.cached = false ∧
      (buildKnowledgeGraph papers topic st0 now1 rand1 k1).2.2 = true ∧
      (buildKnowledgeGraph papers topic
          (buildKnowledgeGraph papers topic st0 now1 rand1 k1).2.1
          now2 rand2 k2).1 =
        BuildResult.ok
          { resp with data := { resp.data with cached := true } } ∧
      (buildKnowledgeGraph papers topic
          (buildKnowledgeGraph papers topic st0 now1 rand1 k1).2.1
          now2 rand2 k2).2.2 = false := by
  have hne' : papers.isEmpty = false := by
    cases papers with
    | nil => exact absurd rfl hne
    | cons p ps => rfl
  have h1 := buildKG_miss papers topic st0 now1 rand1 k1 hne' hmiss
  refine ⟨freshGraphResponse papers
    ((strTruthy topic).getD "research_graph_topic") now1 rand1 k1,
    by rw [h1], rfl, by rw [h1], ?_, ?_⟩
  · have hget := cacheGet_set_fresh
      (cacheGet st0 (graphCacheKey
        ((strTruthy topic).getD "research_graph_topic") papers) now1).2
      (graphCacheKey
        ((strTruthy topic).getD "research_graph_topic") papers)
      (freshGraphResponse papers
        ((strTruthy topic).getD "research_graph_topic") now1 rand1 k1)
      now1 now2 httl
    have h2 := buildKG_hit papers topic
      (buildKnowledgeGraph papers topic st0 now1 rand1 k1).2.1
      now2 rand2 k2
      (freshGraphResponse papers
        ((strTruthy topic).getD "research_graph_topic") now1 rand1 k1)
      hne' (by rw [h1]; rw [hget])
    rw [h2]
  · have hget := cacheGet_set_fresh
      (cacheGet st0 (graphCacheKey
        ((strTruthy topic).getD "research_graph_topic") papers) now1).2
      (graphCacheKey
        ((strTruthy topic).getD "research_graph_topic") papers)
      (freshGraphResponse papers
        ((strTruthy topic).getD "research_graph_topic") now1 rand1 k1)
      now1 now2 httl
    have h2 := buildKG_hit papers topic
      (buildKnowledgeGraph papers topic st0 now1 rand1 k1).2.1
      now2 rand2 k2
      (freshGraphResponse papers
        ((strTruthy topic).getD "research_graph_topic") now1 rand1 k1)
      hne' (by rw [h1]; rw [hget])
    rw [h2]

/-- Witness for `buildGraph_cached_idempotent`: one paper, empty cache,
second call five milliseconds later. -/
theorem buildGraph_cached_idempotent_witness :
    ∃ resp,
      (buildKnowledgeGraph [{ id := "A", title := "", authors := [] }]
        none [] 0 (fun _ => 0) 0).1 = BuildResult.ok resp ∧
      resp.data.cached = false ∧
      (buildKnowledgeGraph [{ id := "A", title := "", authors := [] }]
        none [] 0 (fun _ => 0) 0).2.2 = true ∧
      (buildKnowledgeGraph [{ id := "A", title := "", authors := [] }]
          none
          (buildKnowledgeGraph [{ id := "A", title := "", authors := [] }]
            none [] 0 (fun _ => 0) 0).2.1
          5 (fun _ => 1) 7).1 =
        BuildResult.ok
          { resp with data := { resp.data with cached := true } } ∧
      (buildKnowledgeGraph [{ id := "A", title := "", authors := [] }]
          none
          (buildKnowledgeGraph [{ id := "A", title := "", authors := [] }]
            none [] 0 (fun _ => 0) 0).2.1
          5 (fun _ => 1) 7).2.2 = false :=
  buildGraph_cached_idempotent
    [{ id := "A", title := "", authors := [] }] none [] 0 5
    (fun _ => 0) (fun _ => 1) 0 7 (by decide) rfl (by decide)

/-! ## Claim C1 — detector failures are not contained -/

/-- Claim C1 (counterexample): with the author detector throwing and the
other four detectors intact, `analyzeRelationships` returns no result at
all — the error propagates, so the remaining detectors do not contribute
(at the same input the all-total pipeline would have returned one
citation edge). -/
theorem detectorFailure_not_contained_counterexample :
    analyzeRelationshipsWith (ε := String)
      (fun _ _ => Except.error "detector failure")
      (fun ps idx r n => Except.ok (findVenueRelationships ps idx r n))
      (fun ps idx => Except.ok (findContentRelationships ps idx))
      (fun ps r n => Except.ok (findTemporalRelationships ps r n))
      (fun ps => Except.ok (findCitationRelationships ps))
      citePairPapers (fun _ => 0) 0 = Except.error "detector failure" ∧
    (analyzeRelationships citePairPapers (fun _ => 0) 0).1 =
      [citePairRel] := by
  exact ⟨rfl, rfl⟩

/-- Claim C1 (amended): `analyzeRelationships` has no per-detector fault
containment — whichever of the five detectors throws first (all earlier
ones succeeding), the exception propagates out of the call and nothing is
returned to the caller, hence no other detector's edges survive. -/
theorem detectorFailure_propagates {ε : Type}
    (dA : List Paper → PaperIdx → Except ε (List PaperRelationship))
    (dV : List Paper → PaperIdx → (Nat → ℚ) → Nat →
      Except ε (List PaperRelationship × Nat))
    (dC : List Paper → PaperIdx → Except ε (List PaperRelationship))
    (dT : List Paper → (Nat → ℚ) → Nat →
      Except ε (List PaperRelationship × Nat))
    (dCit : List Paper → Except ε (List PaperRelationship))
    (papers : List Paper) (rand : Nat → ℚ) (k : Nat) (e : ε) :
    (dA (sampledOf papers) (buildAuthorIndex papers) = Except.error e →
      analyzeRelationshipsWith dA dV dC dT dCit papers rand k =
        Except.error e) ∧
    (∀ rA, dA (sampledOf papers) (buildAuthorIndex papers) = Except.ok rA →
      dV (sampledOf papers) (buildVenueIndex papers) rand k =
        Except.error e →
      analyzeRelationshipsWith dA dV dC dT dCit papers rand k =
        Except.error e) ∧
    (∀ rA stV, dA (sampledOf papers) (buildAuthorIndex papers) =
        Except.ok rA →
      dV (sampledOf papers) (buildVenueIndex papers) rand k =
        Except.ok stV →
      dC (sampledOf papers) (buildKeywordIndex papers) = Except.error e →
      analyzeRelationshipsWith dA dV dC dT dCit papers rand k =
        Except.error e) ∧
    (∀ rA stV rC, dA (sampledOf papers) (buildAuthorIndex papers) =
        Except.ok rA →
      dV (sampledOf papers) (buildVenueIndex papers) rand k =
        Except.ok stV →
      dC (sampledOf papers) (buildKeywordIndex papers) = Except.ok rC →
      dT (sampledOf papers) rand stV.2 = Except.error e →
      analyzeRelationshipsWith dA dV dC dT dCit papers rand k =
        Except.error e) ∧
    (∀ rA stV rC stT, dA (sampledOf papers) (buildAuthorIndex papers) =
        Except.ok rA →
      dV (sampledOf papers) (buildVenueIndex papers) rand k =
        Except.ok stV →
      dC (sampledOf papers) (buildKeywordIndex papers) = Except.ok rC →
      dT (sampledOf papers) rand stV.2 = Except.ok stT →
      dCit (sampledOf papers) = Except.error e →
      analyzeRelationshipsWith dA dV dC dT dCit papers rand k =
        Except.error e) := by
  refine ⟨?_, ?_, ?_, ?_, ?_⟩
  · intro hA
    simp only [analyzeRelationshipsWith, hA, exceptBind_error]
  · intro rA hA hV
    simp only [analyzeRelationshipsWith, hA, hV, exceptBind_ok,
      exceptBind_error]
  · intro rA stV hA hV hC
    simp only [analyzeRelationshipsWith, hA, hV, hC, exceptBind_ok,
      exceptBind_error]
  · intro rA stV rC hA hV hC hT
    simp only [analyzeRelationshipsWith, hA, hV, hC, hT, exceptBind_ok,
      exceptBind_error]
  · intro rA stV rC stT hA hV hC hT hCit
    simp only [analyzeRelationshipsWith, hA, hV, hC, hT, hCit,
      exceptBind_ok, exceptBind_error]

/-- Witness for `detectorFailure_propagates`: a concrete throwing author
detector at a concrete input. -/
theorem detectorFailure_propagates_witness :
    analyzeRelationshipsWith (ε := String)
      (fun _ _ => Except.error "author detector threw")
      (fun ps idx r n => Except.ok (findVenueRelationships ps idx r n))
      (fun ps idx => Except.ok (findContentRelationships ps idx))
      (fun ps r n => Except.ok (findTemporalRelationships ps r n))
      (fun ps => Except.ok (findCitationRelationships ps))
      [{ id := "w", title := "", authors := [] }] (fun _ => 0) 0 =
      Except.error "author detector threw" :=
  (detectorFailure_propagates
    (fun _ _ => Except.error "author detector threw")
    (fun ps idx r n => Except.ok (findVenueRelationships ps idx r n))
    (fun ps idx => Except.ok (findContentRelationships ps idx))
    (fun ps r n => Except.ok (findTemporalRelationships ps r n))
    (fun ps => Except.ok (findCitationRelationships ps))
    [{ id := "w", title := "", authors := [] }] (fun _ => 0) 0
    "author detector threw").1 rfl

/-! ## Claim C2 — `buildGraph` on an empty paper list -/

/-- Claim C2 (counterexample): at the concrete input `papers = []` the
route does not return a zero-edge artifact — it rejects the request with
a validation error, so no success response exists for it. -/
theorem buildGraph_empty_rejected_counterexample :
    (buildKnowledgeGraph [] none [] 0 (fun _ => 0) 0).1 =
      BuildResult.badRequest "Papers array (non-empty) is required" ∧
    ¬ ∃ resp, (buildKnowledgeGraph [] none [] 0 (fun _ => 0) 0).1 =
      BuildResult.ok resp ∧ resp.data.graphEdges = [] := by
  refine ⟨rfl, ?_⟩
  rintro ⟨resp, h, -⟩
  rw [show (buildKnowledgeGraph [] none [] 0 (fun _ => 0) 0).1 =
    BuildResult.badRequest "Papers array (non-empty) is required" from rfl] at h
  exact BuildResult.noConfusion h

/-- Claim C2 (amended): an empty paper list is rejected with a validation
error before any processing — for every topic, cache state, clock and
random source the handler returns the 400 message, leaves the cache
untouched and runs no build work. -/
theorem buildGraph_empty_rejected (topic : Option String)
    (cache : CacheState GraphResponse) (now : Nat) (rand : Nat → ℚ)
    (k : Nat) :
    buildKnowledgeGraph [] topic cache now rand k =
      (BuildResult.badRequest "Papers array (non-empty) is required",
       cache, false) := rfl

/-! ## Claim C4 — global edge budget -/

/-- Claim C4: for every input paper list (and random source), the list of
relationships returned by `analyzeRelationships` has at most 200
elements. -/
theorem analyzeRelationships_length_le (papers : List Paper)
    (rand : Nat → ℚ) (k : Nat) :
    (analyzeRelationships papers rand k).1.length ≤ 200 := by
  simp only [analyzeRelationships]
  exact List.length_take_le 200
    (rankRelationships (deduplicateRelationships
      (mergedCandidates papers rand k).1))

end ResearchReasoner
